import Mathlib

/-!
Shallow embedding of the alert pipeline of the `linux_monitor` repository
(directory `ai_alert_system`): the local threshold detector and LLM gating
policy (`src/agents/analysis_agent.py`), the analysis fallback tiers and
confidence policy of `LangChainMonitoringAgent.analyze`, the alert
construction of `SimpleAIAlertSystem._handle_alerts` (`main.py`), and the
stateful `AlertManager` (`src/alert_engine/alert_manager.py`):
deduplication, suppression windows, escalation, resolution, statistics.

Modelling conventions:
* Python floats (metric values, thresholds, confidences) and `datetime`
  values are modelled as rationals; `datetime.now()` becomes an explicit
  `now : ℚ` argument threaded through the stateful operations, and
  `timedelta(minutes=d)` is `+ d` in the same time scale.
* Python strings are `String`; `pat in s` is substring containment.
* The mutable `Alert` objects shared by reference between
  `AlertManager.active_alerts` and `AlertManager.alert_history` are
  modelled as the cells of an arena (`ManagerState.store`); both
  collections hold indices into the arena, so an in-place field update
  performed through the active set is visible through the history, exactly
  as in the Python source.
* `active_alerts : Dict[str, Alert]` is an insertion-ordered association
  list; overwriting an existing key keeps its slot (Python dict
  semantics), inserting a fresh key appends.
* The external LLM capability invoked by the deep-analysis tiers is an
  oracle parameter (`TierOutcome` / a result value): the embedding is
  parametric in the outcome of each external call, as the code is.
* Fields of the Python dataclasses never read by the embedded code paths
  (per-core stats, network interfaces, the free-form `context` dict) are
  omitted from the corresponding structures.
-/

namespace LinuxMonitor

/-- Python's substring test `pat in s`. -/
def strContains (s pat : String) : Bool :=
  decide (pat.toList <:+: s.toList)

/-- `AlertLevel` enum from `src/models/data_models.py`. -/
inductive AlertLevel where
  | info
  | warning
  | critical
  | emergency
deriving DecidableEq, Repr, Inhabited

/-- The `.value` string of each `AlertLevel` member. -/
def AlertLevel.value : AlertLevel → String
  | .info => "info"
  | .warning => "warning"
  | .critical => "critical"
  | .emergency => "emergency"

/-- `MetricType` enum from `src/models/data_models.py` (the members used by
the embedded code paths; the remaining members behave identically in every
operation modelled here, which only ever reads `.value`). -/
inductive MetricType where
  | cpu_usage
  | cpu_load
  | cpu_io_wait
  | memory_usage
  | memory_cache
  | memory_swap
  | network_traffic
  | disk_io
  | process_count
deriving DecidableEq, Repr, Inhabited

/-- The `.value` string of each modelled `MetricType` member. -/
def MetricType.value : MetricType → String
  | .cpu_usage => "cpu_usage"
  | .cpu_load => "cpu_load"
  | .cpu_io_wait => "cpu_io_wait"
  | .memory_usage => "memory_usage"
  | .memory_cache => "memory_cache"
  | .memory_swap => "memory_swap"
  | .network_traffic => "network_traffic"
  | .disk_io => "disk_io"
  | .process_count => "process_count"

/-- The fields of `MonitoringData` read by the detector, the analysis agent
and the alert construction in `main.py`. -/
structure MonitoringData where
  hostname : String
  cpu_usage : ℚ
  memory_total : ℚ
  memory_used : ℚ
  cpu_load_1min : ℚ
deriving DecidableEq, Repr

/-- `(data.memory_used / data.memory_total) * 100`, as computed at each use
site in the Python source. -/
def memoryUsagePercent (d : MonitoringData) : ℚ :=
  d.memory_used / d.memory_total * 100

/-- Threshold fields of `Settings` (`src/config.py`), at their declared
defaults. -/
structure Settings where
  cpu_threshold_warning : ℚ := 80
  cpu_threshold_critical : ℚ := 95
  memory_threshold_warning : ℚ := 85
  memory_threshold_critical : ℚ := 95
  load_threshold_warning : ℚ := 4
  load_threshold_critical : ℚ := 8

/-- The global `settings` instance with default values. -/
def settings : Settings := {}

/-- `Alert` dataclass from `src/models/data_models.py` (sans the free-form
`context` payload, which no embedded code path reads). -/
structure Alert where
  id : String
  timestamp : ℚ
  level : AlertLevel
  metric_type : MetricType
  title : String
  description : String
  current_value : ℚ
  threshold_value : ℚ
  hostname : String
  suggested_actions : List String
  resolved : Bool := false
  resolved_at : Option ℚ := none
deriving DecidableEq, Repr, Inhabited

/-- The state of `AlertManager`: the arena of alert records plus the three
collections.  `active_alerts` and `alert_history` hold arena indices so
that the in-place mutations of the Python source are shared. -/
structure ManagerState where
  store : List Alert
  active_alerts : List (String × Nat)
  alert_history : List Nat
  suppression_rules : List (String × ℚ)
deriving Repr

/-- The state of a freshly constructed `AlertManager`. -/
def emptyManager : ManagerState := ⟨[], [], [], []⟩

/-- Association-list lookup (first match), Python `d[k]` / `k in d`. -/
def lookupKey (k : String) : List (String × α) → Option α
  | [] => none
  | p :: l => if p.1 = k then some p.2 else lookupKey k l

/-- Association-list write `d[k] = v` with Python dict semantics: an
existing key keeps its slot, a fresh key appends. -/
def setKey (k : String) (v : α) (l : List (String × α)) : List (String × α) :=
  if l.any (fun p => p.1 = k) then
    l.map (fun p => if p.1 = k then (k, v) else p)
  else
    l ++ [(k, v)]

/-- The suppression-rule key `f"{hostname}_{metric}"`. -/
def suppression_key (hostname metric : String) : String :=
  hostname ++ "_" ++ metric

/-- `AlertManager._is_suppressed`: returns whether the alert is suppressed
and the (possibly updated) state — an expired rule is deleted on the spot. -/
def is_suppressed (st : ManagerState) (now : ℚ) (a : Alert) : Bool × ManagerState :=
  let key := suppression_key a.hostname a.metric_type.value
  match lookupKey key st.suppression_rules with
  | some suppressionEnd =>
      if now < suppressionEnd then (true, st)
      else (false, { st with
        suppression_rules := st.suppression_rules.filter (fun p => p.1 ≠ key) })
  | none => (false, st)

/-- The match predicate of `AlertManager._find_similar_alert`: same
hostname, same metric type, not resolved. -/
def similar (a e : Alert) : Bool :=
  decide (e.hostname = a.hostname) && decide (e.metric_type = a.metric_type) && !e.resolved

/-- `AlertManager._find_similar_alert`, returning the arena index of the
first active alert matching `similar` (iteration in insertion order, as
over `dict.values()`). -/
def find_similar_alert (st : ManagerState) (a : Alert) : Option Nat :=
  st.active_alerts.findSome? (fun p =>
    match st.store.get? p.2 with
    | some e => if similar a e then some p.2 else none
    | none => none)

/-- `AlertManager._update_existing_alert`, acting on the arena cell `i`:
refresh `current_value`/`timestamp` in place; if the incoming level's
`.value` differs, overwrite level and description and notify.  Returns the
new state and the number of notifier invocations. -/
def update_existing_alert (st : ManagerState) (i : Nat) (n : Alert) :
    ManagerState × Nat :=
  match st.store.get? i with
  | none => (st, 0)
  | some e =>
    let e1 := { e with current_value := n.current_value, timestamp := n.timestamp }
    if n.level.value ≠ e1.level.value then
      let e2 := { e1 with level := n.level, description := n.description }
      ({ st with store := st.store.set i e2 }, 1)
    else
      ({ st with store := st.store.set i e1 }, 0)

/-- `AlertManager._create_new_alert`: append to the arena, register in the
active dict under `alert.id`, append to the history, notify once. -/
def create_new_alert (st : ManagerState) (a : Alert) : ManagerState × Nat :=
  let idx := st.store.length
  ({ st with
      store := st.store ++ [a],
      active_alerts := setKey a.id idx st.active_alerts,
      alert_history := st.alert_history ++ [idx] }, 1)

/-- `AlertManager.process_alert`: suppression check, then dedup against the
active set, then update-or-create.  Returns the new state and the number of
notifier invocations. -/
def process_alert (st : ManagerState) (now : ℚ) (a : Alert) : ManagerState × Nat :=
  match is_suppressed st now a with
  | (true, st1) => (st1, 0)
  | (false, st1) =>
    match find_similar_alert st1 a with
    | some i => update_existing_alert st1 i a
    | none => create_new_alert st1 a

/-- `AlertManager.resolve_alert`: mark resolved, stamp `resolved_at`, drop
from the active dict (the history still references the same arena cell). -/
def resolve_alert (st : ManagerState) (now : ℚ) (alert_id : String) : ManagerState :=
  match lookupKey alert_id st.active_alerts with
  | none => st
  | some i =>
    match st.store.get? i with
    | none => st
    | some e =>
      { st with
          store := st.store.set i ({ e with resolved := true, resolved_at := some now }),
          active_alerts := st.active_alerts.filter (fun p => p.1 ≠ alert_id) }

/-- `AlertManager.suppress_alerts`: install/overwrite a suppression rule
expiring at `now + duration_minutes`. -/
def suppress_alerts (st : ManagerState) (now : ℚ) (hostname metric : String)
    (duration_minutes : ℚ) : ManagerState :=
  let key := suppression_key hostname metric
  { st with suppression_rules := setKey key (now + duration_minutes) st.suppression_rules }

/-- `AlertManager.get_active_alerts`: the current records of the active
dict, in insertion order. -/
def get_active_alerts (st : ManagerState) : List Alert :=
  st.active_alerts.filterMap (fun p => st.store.get? p.2)

/-- The records of `alert_history` (dereferenced through the arena). -/
def history_alerts (st : ManagerState) : List Alert :=
  st.alert_history.filterMap st.store.get?

/-- Result of `AlertManager.get_alert_statistics`. -/
structure AlertStatistics where
  total_alerts : Nat
  active_alerts : Nat
  resolved_alerts : Int
  level_distribution : AlertLevel → Nat
  hostname_distribution : String → Nat

/-- `AlertManager.get_alert_statistics`. -/
def get_alert_statistics (st : ManagerState) : AlertStatistics where
  total_alerts := st.alert_history.length
  active_alerts := st.active_alerts.length
  resolved_alerts := (st.alert_history.length : Int) - st.active_alerts.length
  level_distribution := fun lv => (history_alerts st).countP (fun a => a.level = lv)
  hostname_distribution := fun h => (history_alerts st).countP (fun a => a.hostname = h)

/-- One public operation on the manager, with its evaluation time. -/
inductive MgrOp where
  | process (now : ℚ) (a : Alert)
  | resolve (now : ℚ) (alert_id : String)
  | suppress (now : ℚ) (hostname metric : String) (duration_minutes : ℚ)

/-- Apply one operation (discarding the notification count). -/
def applyOp (st : ManagerState) : MgrOp → ManagerState
  | .process now a => (process_alert st now a).1
  | .resolve now alert_id => resolve_alert st now alert_id
  | .suppress now h m d => suppress_alerts st now h m d

/-- Run a sequence of operations from a state. -/
def runOps (st : ManagerState) (ops : List MgrOp) : ManagerState :=
  ops.foldl applyOp st

/-- An alert as constructed by the alert factory (`main.py`): not yet
resolved. -/
def freshAlert (a : Alert) : Prop :=
  a.resolved = false ∧ a.resolved_at = none

/-- Every alert fed to `process` in the sequence is factory-fresh. -/
def opFresh : MgrOp → Prop
  | .process _ a => freshAlert a
  | _ => True

/-- A manager state reachable from a fresh `AlertManager` by operations
whose processed alerts are factory-fresh. -/
def Reachable (st : ManagerState) : Prop :=
  ∃ ops : List MgrOp, (∀ op ∈ ops, opFresh op) ∧ runOps emptyManager ops = st

/-! ### The analysis agent (`src/agents/analysis_agent.py`) -/

/-- `LangChainMonitoringAgent._detect_issues_locally`: CPU, memory and
load compared against the tiered threshold table, plus the compound
I/O-bottleneck signature (`load > 5 and cpu < 50`). -/
def detect_issues_locally (d : MonitoringData) : List String :=
  (if d.cpu_usage > 95 then ["CPU使用率严重过高"]
   else if d.cpu_usage > 80 then ["CPU使用率偏高"] else []) ++
  (if memoryUsagePercent d > 95 then ["内存严重不足"]
   else if memoryUsagePercent d > 85 then ["内存使用率偏高"] else []) ++
  (if d.cpu_load_1min > 10 then ["系统负载严重过高"]
   else if d.cpu_load_1min > 8 then ["系统负载偏高"] else []) ++
  (if d.cpu_load_1min > 5 ∧ d.cpu_usage < 50 then ["负载高但CPU低，可能存在I/O瓶颈"] else [])

/-- The complex-issue keyword set of `_should_use_llm`. -/
def complexKeywords : List String := ["严重", "瓶颈", "不足"]

/-- `LangChainMonitoringAgent._should_use_llm` (the gating policy): deep
analysis is warranted iff any issue contains a complex keyword. -/
def should_use_llm (issues : List String) : Bool :=
  issues.any (fun issue => complexKeywords.any (fun kw => strContains issue kw))

/-- `IssueAnalysis` structured analysis output. -/
structure IssueAnalysis where
  root_cause : String
  severity : String
  impact : String
deriving DecidableEq, Repr

/-- `LangChainMonitoringAgent._get_rule_based_analysis` (the terminal,
always-succeeding rule-based tier). -/
def get_rule_based_analysis (issues : List String) : IssueAnalysis :=
  let root_cause := "基于规则检测: " ++ String.intercalate "; " issues
  if issues.any (fun issue => strContains issue "严重") then
    { root_cause := root_cause, severity := "高", impact := "严重影响系统稳定性" }
  else if issues.any (fun issue => strContains issue "瓶颈") then
    { root_cause := root_cause, severity := "中", impact := "影响系统响应性能" }
  else
    { root_cause := root_cause, severity := "低", impact := "轻微影响系统运行" }

/-- Outcome of one external LLM call (the oracle for a chain invocation or
the direct completion): a returned value, or an exception / timeout. -/
inductive TierOutcome (α : Type) where
  | success (value : α)
  | failure
deriving DecidableEq, Repr

/-- The capability flags of `LangChainMonitoringAgent.__init__`:
`use_langchain` and whether the direct `openai_client` exists. -/
structure AgentConfig where
  use_langchain : Bool
  openai_client : Bool
deriving DecidableEq, Repr

/-- `_fallback_analysis_mode`: the direct-completion tier when the OpenAI
client exists (its response text supplied by the oracle), the rule-based
tier otherwise or on failure.  The Python method always sets
`fallback_used = True` on its context. -/
def fallback_analysis_mode (cfg : AgentConfig) (issues : List String)
    (tier2 : TierOutcome String) : IssueAnalysis :=
  if cfg.openai_client then
    match tier2 with
    | .success text =>
        { root_cause := text, severity := "中", impact := "可能影响系统性能" }
    | .failure => get_rule_based_analysis issues
  else get_rule_based_analysis issues

/-- `_perform_langchain_analysis`: the structured-chain tier (outcome from
the oracle); on exception or timeout, degrade to `_fallback_analysis_mode`.
Returns the analysis and the resulting `fallback_used` flag. -/
def perform_langchain_analysis (cfg : AgentConfig) (issues : List String)
    (tier1 : TierOutcome IssueAnalysis) (tier2 : TierOutcome String) :
    IssueAnalysis × Bool :=
  if cfg.use_langchain then
    match tier1 with
    | .success a => (a, false)
    | .failure => (fallback_analysis_mode cfg issues tier2, true)
  else (fallback_analysis_mode cfg issues tier2, true)

/-- `SolutionRecommendation` structured solution output. -/
structure SolutionRecommendation where
  immediate_actions : List String
  monitoring_steps : List String
  preventive_measures : List String
deriving DecidableEq, Repr

/-- Stable deduplication, first occurrence wins (`dict.fromkeys`). -/
def dedupKeepFirst (seen : List String) : List String → List String
  | [] => []
  | x :: xs =>
      if x ∈ seen then dedupKeepFirst seen xs
      else x :: dedupKeepFirst (x :: seen) xs

/-- One step of the per-issue elif chain of `_get_fallback_solutions`,
threading the three accumulated lists. -/
def fallbackSolutionStep (acc : List String × List String × List String)
    (issue : String) : List String × List String × List String :=
  if strContains issue "CPU" then
    (acc.1 ++ ["使用top命令查看高CPU进程"], acc.2.1 ++ ["监控CPU使用率趋势"],
     acc.2.2 ++ ["优化高消耗进程或增加CPU资源"])
  else if strContains issue "内存" then
    (acc.1 ++ ["使用free -h检查内存详情"], acc.2.1 ++ ["监控内存使用模式"],
     acc.2.2 ++ ["检查内存泄漏或增加内存容量"])
  else if strContains issue "负载" then
    (acc.1 ++ ["检查系统负载和等待队列"], acc.2.1 ++ ["持续监控系统负载"],
     acc.2.2 ++ ["分析负载来源并进行优化"])
  else if strContains issue "I/O瓶颈" then
    (acc.1 ++ ["使用iostat检查磁盘I/O"], acc.2.1 ++ ["监控I/O性能指标"],
     acc.2.2 ++ ["优化I/O操作或升级存储"])
  else acc

/-- `LangChainMonitoringAgent._get_fallback_solutions`: keyword templates
per issue, the first two knowledge snippets, stable dedup, caps 5/3/3. -/
def get_fallback_solutions (issues knowledge_results : List String) :
    SolutionRecommendation :=
  let acc := issues.foldl fallbackSolutionStep ([], [], [])
  { immediate_actions := (dedupKeepFirst [] (acc.1 ++ knowledge_results.take 2)).take 5,
    monitoring_steps := (dedupKeepFirst [] acc.2.1).take 3,
    preventive_measures := (dedupKeepFirst [] acc.2.2).take 3 }

/-- `_generate_langchain_solutions`: the knowledge-store contents and the
solution-chain outcome are oracle parameters (external collaborators);
prefer the chain result when LangChain is enabled and an analysis exists,
else — or on chain failure — use `get_fallback_solutions`. -/
def generate_langchain_solutions (cfg : AgentConfig) (issues : List String)
    (analysis : Option IssueAnalysis) (knowledge : List String)
    (solOutcome : TierOutcome SolutionRecommendation) : SolutionRecommendation :=
  if cfg.use_langchain ∧ analysis.isSome then
    match solOutcome with
    | .success s => s
    | .failure => get_fallback_solutions issues knowledge
  else get_fallback_solutions issues knowledge

/-- `AnalysisResult` (the fields consumed downstream; of the
`analysis_details` dict, the `fallback_used` entry is kept). -/
structure AnalysisResult where
  timestamp : ℚ
  hostname : String
  anomalies_detected : List String
  performance_issues : List String
  recommendations : List String
  confidence_score : ℚ
  fallback_used : Bool
deriving DecidableEq, Repr

/-- `_create_analysis_result`: assemble the recommendations from the three
solution lists and clamp the confidence with `min(confidence, 1.0)`. -/
def create_analysis_result (now : ℚ) (d : MonitoringData) (issues : List String)
    (solutions : Option SolutionRecommendation) (confidence : ℚ)
    (fallback_used : Bool) : AnalysisResult :=
  let recommendations := match solutions with
    | some s => s.immediate_actions ++ s.monitoring_steps ++ s.preventive_measures
    | none => []
  { timestamp := now, hostname := d.hostname,
    anomalies_detected := issues, performance_issues := issues,
    recommendations := recommendations,
    confidence_score := min confidence 1,
    fallback_used := fallback_used }

/-- `_fallback_analysis`: the minimal synthetic result the caller receives
when the whole pipeline fails. -/
def fallback_analysis (now : ℚ) (d : MonitoringData) : AnalysisResult :=
  { timestamp := now, hostname := d.hostname,
    anomalies_detected := ["系统检测异常"],
    performance_issues := ["分析流程失败"],
    recommendations := ["建议人工检查系统状态和日志"],
    confidence_score := 0.3,
    fallback_used := true }

/-- The oracle inputs of one `analyze` run: the outcomes of the external
calls, the knowledge-store contents, and whether the surrounding pipeline
raises (the `except` branch of `analyze`). -/
structure AnalyzeOracle where
  tier1 : TierOutcome IssueAnalysis
  tier2 : TierOutcome String
  knowledge : List String
  solutions : TierOutcome SolutionRecommendation
  pipeline_raises : Bool

/-- The result of one `analyze` run, together with the bookkeeping bit
`tier1_succeeded` (did the structured-chain tier itself return?), needed to
state the confidence-policy claims. -/
structure AnalyzeRun where
  result : AnalysisResult
  tier1_succeeded : Bool

/-- `LangChainMonitoringAgent.analyze`: local detection (confidence 0.6 and
early return when clean), the gated deep-analysis step (confidence set to
0.9 after the attempt), the degraded path (confidence 0.7), the solution
step, and the synthetic `_fallback_analysis` when the pipeline raises. -/
def analyze (cfg : AgentConfig) (now : ℚ) (d : MonitoringData) (o : AnalyzeOracle) :
    AnalyzeRun :=
  if o.pipeline_raises then ⟨fallback_analysis now d, false⟩
  else
    let issues := detect_issues_locally d
    if issues.isEmpty then
      ⟨create_analysis_result now d issues none 0.6 false, false⟩
    else if cfg.use_langchain && should_use_llm issues then
      let a := perform_langchain_analysis cfg issues o.tier1 o.tier2
      let sols := generate_langchain_solutions cfg issues (some a.1) o.knowledge o.solutions
      ⟨create_analysis_result now d issues (some sols) 0.9 a.2,
        match o.tier1 with | .success _ => true | .failure => false⟩
    else
      let a := fallback_analysis_mode cfg issues o.tier2
      let sols := generate_langchain_solutions cfg issues (some a) o.knowledge o.solutions
      ⟨create_analysis_result now d issues (some sols) 0.7 true, false⟩

/-! ### Alert construction in the main loop (`main.py`) -/

/-- The alert-level keyword heuristic of
`SimpleAIAlertSystem._handle_alerts`. -/
def classify_alert_level (anomaly : String) : AlertLevel :=
  if strContains anomaly "Critical" || strContains anomaly "Extremely" then .critical
  else if strContains anomaly "High" then .warning
  else .info

/-- The metric-type classification of `_handle_alerts`, returning the
metric type, the current value and the threshold of the chosen branch. -/
def classify_metric (d : MonitoringData) (anomaly : String) : MetricType × ℚ × ℚ :=
  if strContains anomaly "CPU" then
    (.cpu_usage, d.cpu_usage, settings.cpu_threshold_warning)
  else if strContains anomaly "memory" then
    (.memory_usage, memoryUsagePercent d, settings.memory_threshold_warning)
  else if strContains anomaly "load" then
    (.cpu_load, d.cpu_load_1min, settings.load_threshold_warning)
  else (.cpu_usage, 0, 0)

/-- The `Alert` constructed for one anomaly in `_handle_alerts`. -/
def mk_alert (now : ℚ) (d : MonitoringData) (res : AnalysisResult)
    (anomaly : String) : Alert :=
  let mtc := classify_metric d anomaly
  { id := d.hostname ++ "_" ++ mtc.1.value ++ "_" ++ toString now,
    timestamp := now,
    level := classify_alert_level anomaly,
    metric_type := mtc.1,
    title := d.hostname ++ ": " ++ anomaly,
    description := "在 " ++ d.hostname ++ " 上检测到: " ++ anomaly,
    current_value := mtc.2.1,
    threshold_value := mtc.2.2,
    hostname := d.hostname,
    suggested_actions := res.recommendations.take 3 }

/-- `_handle_alerts`: one alert per detected anomaly, each fed to
`AlertManager.process_alert`; returns the final manager state and the
total number of notifier invocations. -/
def handle_alerts (st : ManagerState) (now : ℚ) (d : MonitoringData)
    (res : AnalysisResult) : ManagerState × Nat :=
  res.anomalies_detected.foldl
    (fun acc anomaly =>
      let r := process_alert acc.1 now (mk_alert now d res anomaly)
      (r.1, acc.2 + r.2))
    (st, 0)

/-! ### Proof-side definitions -/

/-- The dedup identity of an alert record. -/
def pairOf (e : Alert) : String × MetricType := (e.hostname, e.metric_type)

/-- Well-formedness of a manager state; every state of the running program
satisfies it (`wf_of_reachable`). -/
structure Wf (st : ManagerState) : Prop where
  idx_lt : ∀ p ∈ st.active_alerts, p.2 < st.store.length
  keys_nodup : (st.active_alerts.map Prod.fst).Nodup
  idx_nodup : (st.active_alerts.map Prod.snd).Nodup
  cell_ok : ∀ p ∈ st.active_alerts, ∀ e, st.store.get? p.2 = some e →
      e.resolved = false ∧ e.id = p.1
  pairs_nodup : ((get_active_alerts st).map pairOf).Nodup
  hist_eq : st.alert_history = List.range st.store.length
  res_iff : ∀ e ∈ st.store, e.resolved = true ↔ e.resolved_at.isSome = true

/-- The snapshot of the end-to-end example: host `h1`, CPU 97 %, memory
ratio 60 %, 1-minute load 2.0. -/
def snapH1 : MonitoringData :=
  { hostname := "h1", cpu_usage := 97, memory_total := 100, memory_used := 60,
    cpu_load_1min := 2 }

/-- A snapshot with 1-minute load 9 and otherwise calm metrics. -/
def snapLoad9 : MonitoringData :=
  { hostname := "h2", cpu_usage := 60, memory_total := 100, memory_used := 50,
    cpu_load_1min := 9 }

/-- A concrete factory-style warning-level CPU alert used as witness input. -/
def sampleAlert : Alert :=
  { id := "h1_cpu_usage_1", timestamp := 1, level := .warning,
    metric_type := .cpu_usage, title := "h1: cpu",
    description := "cpu warning", current_value := 85, threshold_value := 80,
    hostname := "h1", suggested_actions := [] }

/-- The same identity as `sampleAlert`, escalated to critical with a later
value and timestamp. -/
def sampleAlertB : Alert :=
  { id := "h1_cpu_usage_2", timestamp := 2, level := .critical,
    metric_type := .cpu_usage, title := "h1: cpu",
    description := "cpu critical", current_value := 97, threshold_value := 80,
    hostname := "h1", suggested_actions := [] }

/-- The record written back by `_update_existing_alert` for existing cell
`e` and incoming alert `n`. -/
def updatedCell (e n : Alert) : Alert :=
  if n.level.value ≠ e.level.value then
    { e with current_value := n.current_value, timestamp := n.timestamp,
             level := n.level, description := n.description }
  else
    { e with current_value := n.current_value, timestamp := n.timestamp }

/-! ### Helper lemmas: association lists with dict semantics -/

theorem lookupKey_eq_none_iff {l : List (String × α)} {k : String} :
    lookupKey k l = none ↔ ∀ p ∈ l, p.1 ≠ k := by
  induction l with
  | nil => simp [lookupKey]
  | cons p l ih => by_cases h : p.1 = k <;> simp [lookupKey, h, ih]

theorem lookupKey_any {l : List (String × α)} {k : String} :
    (lookupKey k l).isSome = l.any (fun p => p.1 = k) := by
  induction l with
  | nil => simp [lookupKey]
  | cons p l ih => by_cases h : p.1 = k <;> simp [lookupKey, h, ih]

theorem lookupKey_append_of_none {l1 l2 : List (String × α)} {k : String}
    (h : lookupKey k l1 = none) : lookupKey k (l1 ++ l2) = lookupKey k l2 := by
  induction l1 with
  | nil => simp
  | cons p l1 ih =>
    by_cases hp : p.1 = k
    · simp [lookupKey, hp] at h
    · simp only [lookupKey, hp, if_false, List.cons_append] at h ⊢
      exact ih h

theorem setKey_of_not_mem {l : List (String × α)} {k : String} (v : α)
    (h : l.any (fun p => p.1 = k) = false) : setKey k v l = l ++ [(k, v)] := by
  simp [setKey, h]

theorem any_key_decomp {l : List (String × α)} {k : String}
    (h : l.any (fun p => p.1 = k) = true) :
    ∃ l1 p l2, l = l1 ++ p :: l2 ∧ p.1 = k ∧ ∀ q ∈ l1, q.1 ≠ k := by
  induction l with
  | nil => simp at h
  | cons q l ih =>
    by_cases hq : q.1 = k
    · exact ⟨[], q, l, rfl, hq, by simp⟩
    · have h' : l.any (fun p => p.1 = k) = true := by
        simpa [List.any_cons, hq] using h
      obtain ⟨l1, p, l2, rfl, hp, hl1⟩ := ih h'
      refine ⟨q :: l1, p, l2, rfl, hp, ?_⟩
      intro r hr
      rcases List.mem_cons.mp hr with rfl | hr
      · exact hq
      · exact hl1 r hr

theorem setKey_decomp {l : List (String × α)} {k : String} (v : α)
    (hkeys : (l.map Prod.fst).Nodup)
    (h : l.any (fun p => p.1 = k) = true) :
    ∃ l1 p l2, l = l1 ++ p :: l2 ∧ p.1 = k ∧ (∀ q ∈ l1, q.1 ≠ k) ∧
      (∀ q ∈ l2, q.1 ≠ k) ∧ setKey k v l = l1 ++ (k, v) :: l2 := by
  obtain ⟨l1, p, l2, rfl, hp, hl1⟩ := any_key_decomp h
  have hl2 : ∀ q ∈ l2, q.1 ≠ k := by
    intro q hq
    have hnd := hkeys
    rw [List.map_append, List.map_cons] at hnd
    have hpn : p.1 ∉ (l1.map Prod.fst ++ l2.map Prod.fst) :=
      (List.nodup_cons.mp (List.nodup_middle.mp hnd)).1
    intro hqk
    have hmem : q.1 ∈ l2.map Prod.fst := List.mem_map_of_mem Prod.fst hq
    rw [hqk, ← hp] at hmem
    exact hpn (List.mem_append.mpr (Or.inr hmem))
  refine ⟨l1, p, l2, rfl, hp, hl1, hl2, ?_⟩
  have hmap : ∀ (m : List (String × α)), (∀ q ∈ m, q.1 ≠ k) →
      m.map (fun q => if q.1 = k then (k, v) else q) = m := by
    intro m hm
    induction m with
    | nil => rfl
    | cons q m ihm =>
        rw [List.map_cons, if_neg (hm q (by simp)),
          ihm (fun r hr => hm r (by simp [hr]))]
  rw [setKey, if_pos h, List.map_append, List.map_cons, hmap l1 hl1, hmap l2 hl2,
    if_pos hp]

theorem lookupKey_of_any_false {l : List (String × α)} {k : String}
    (h : l.any (fun p => p.1 = k) = false) : lookupKey k l = none := by
  cases hl : lookupKey k l with
  | none => rfl
  | some w =>
    have hsome := lookupKey_any (l := l) (k := k)
    rw [hl, h] at hsome
    simp at hsome

theorem lookupKey_mapUpd (l : List (String × α)) (k : String) (v : α) :
    lookupKey k (l.map (fun q => if q.1 = k then (k, v) else q)) =
      if l.any (fun p => p.1 = k) then some v else none := by
  induction l with
  | nil => simp [lookupKey]
  | cons q l ih =>
    rw [List.map_cons, List.any_cons]
    by_cases hq : q.1 = k
    · rw [if_pos hq, decide_eq_true hq]
      simp [lookupKey]
    · rw [if_neg hq, decide_eq_false hq, Bool.false_or]
      simp only [lookupKey]
      rw [if_neg hq, ih]

theorem lookupKey_mapUpd_ne (l : List (String × α)) {k k' : String} (v : α)
    (h : k ≠ k') :
    lookupKey k' (l.map (fun q => if q.1 = k then (k, v) else q)) =
      lookupKey k' l := by
  induction l with
  | nil => rfl
  | cons q l ih =>
    rw [List.map_cons]
    by_cases hq : q.1 = k
    · rw [if_pos hq]
      simp only [lookupKey]
      rw [if_neg (fun hc => h hc), if_neg (fun hc => h (hq.symm.trans hc)), ih]
    · rw [if_neg hq]
      simp only [lookupKey]
      by_cases hq' : q.1 = k'
      · rw [if_pos hq', if_pos hq']
      · rw [if_neg hq', if_neg hq', ih]

theorem lookupKey_append_single_ne (l : List (String × α)) {k k' : String}
    (v : α) (h : k ≠ k') :
    lookupKey k' (l ++ [(k, v)]) = lookupKey k' l := by
  induction l with
  | nil => simp [lookupKey, h]
  | cons q l ih =>
    by_cases hq : q.1 = k' <;> simp [lookupKey, hq, ih]

theorem lookupKey_setKey_self (l : List (String × α)) (k : String) (v : α) :
    lookupKey k (setKey k v l) = some v := by
  unfold setKey
  cases h : l.any (fun p => p.1 = k) with
  | false =>
    rw [if_neg (by simp [h]), lookupKey_append_of_none (lookupKey_of_any_false h)]
    simp [lookupKey]
  | true =>
    rw [if_pos rfl, lookupKey_mapUpd]
    simp [h]

theorem lookupKey_setKey_ne (l : List (String × α)) {k k' : String} (v : α)
    (h : k ≠ k') : lookupKey k' (setKey k v l) = lookupKey k' l := by
  unfold setKey
  split
  · exact lookupKey_mapUpd_ne l v h
  · exact lookupKey_append_single_ne l v h

theorem lookupKey_filter_self (l : List (String × α)) (k : String) :
    lookupKey k (l.filter (fun p => p.1 ≠ k)) = none := by
  rw [lookupKey_eq_none_iff]
  intro p hp
  simpa using (List.of_mem_filter hp)

/-! ### Helper lemmas: the similar-alert search -/

theorem findSome?_decomp {α β : Type _} {f : α → Option β} {l : List α} {b : β}
    (h : l.findSome? f = some b) :
    ∃ l1 x l2, l = l1 ++ x :: l2 ∧ f x = some b ∧ ∀ y ∈ l1, f y = none := by
  induction l with
  | nil => simp at h
  | cons z l ih =>
    rw [List.findSome?_cons] at h
    cases hz : f z with
    | some c =>
      rw [hz] at h
      exact ⟨[], z, l, rfl, hz.trans h, by simp⟩
    | none =>
      rw [hz] at h
      obtain ⟨l1, x, l2, rfl, hx, hl1⟩ := ih h
      refine ⟨z :: l1, x, l2, rfl, hx, ?_⟩
      intro y hy
      rcases List.mem_cons.mp hy with rfl | hy
      · exact hz
      · exact hl1 y hy

theorem similar_fields {a e : Alert} (h : similar a e = true) :
    e.hostname = a.hostname ∧ e.metric_type = a.metric_type ∧ e.resolved = false := by
  simp only [similar, Bool.and_eq_true, decide_eq_true_eq, Bool.not_eq_true'] at h
  exact ⟨h.1.1, h.1.2, h.2⟩

theorem similar_self {a : Alert} (h : a.resolved = false) : similar a a = true := by
  simp [similar, h]

theorem similar_congr {a b : Alert} (hh : b.hostname = a.hostname)
    (hm : b.metric_type = a.metric_type) (e : Alert) : similar b e = similar a e := by
  simp [similar, hh, hm]

theorem pairOf_eq_of_similar {a e : Alert} (h : similar a e = true) :
    pairOf e = (a.hostname, a.metric_type) := by
  obtain ⟨h1, h2, -⟩ := similar_fields h
  simp [pairOf, h1, h2]

theorem countP_similar_le_one {l : List Alert} (hnd : (l.map pairOf).Nodup)
    (a : Alert) : l.countP (fun e => similar a e) ≤ 1 := by
  induction l with
  | nil => simp
  | cons e l ih =>
    rw [List.map_cons, List.nodup_cons] at hnd
    by_cases he : similar a e = true
    · rw [List.countP_cons_of_pos _ _ he]
      have hz : l.countP (similar a) = 0 := by
        rw [List.countP_eq_zero]
        intro x hx hsx
        have hpx : pairOf x = pairOf e :=
          (pairOf_eq_of_similar hsx).trans (pairOf_eq_of_similar he).symm
        exact hnd.1 (hpx ▸ List.mem_map_of_mem pairOf hx)
      simp [hz]
    · rw [List.countP_cons_of_neg _ _ he]
      exact ih hnd.2

theorem find_similar_none_records {st : ManagerState} {a : Alert}
    (h : find_similar_alert st a = none) :
    ∀ e ∈ get_active_alerts st, similar a e = false := by
  intro e he
  rw [get_active_alerts, List.mem_filterMap] at he
  obtain ⟨p, hp, hpe⟩ := he
  have hf := List.findSome?_eq_none_iff.mp h p hp
  rw [hpe] at hf
  have hf' : (if similar a e = true then some p.2 else none) = none := hf
  by_contra hs
  rw [if_pos (by simpa using hs)] at hf'
  exact Option.some_ne_none _ hf'

theorem find_similar_some_elim {st : ManagerState} {a : Alert} {i : Nat}
    (h : find_similar_alert st a = some i) :
    ∃ A1 p A2 e, st.active_alerts = A1 ++ p :: A2 ∧ p.2 = i ∧
      st.store.get? i = some e ∧ similar a e = true := by
  obtain ⟨A1, p, A2, hsplit, hp, -⟩ := findSome?_decomp h
  refine ⟨A1, p, A2, ?_⟩
  rcases hget : st.store.get? p.2 with - | e
  · rw [hget] at hp
    exact absurd hp (by simp)
  · rw [hget] at hp
    have hp' : (if similar a e = true then some p.2 else none) = some i := hp
    by_cases hs : similar a e = true
    · rw [if_pos hs] at hp'
      obtain rfl : p.2 = i := by simpa using hp'
      exact ⟨e, hsplit, rfl, hget, hs⟩
    · rw [if_neg hs] at hp'
      exact absurd hp' (by simp)

/-! ### Helper lemmas: record views of the three collections -/

theorem records_store_extend {A : List (String × Nat)} {store : List Alert}
    (hlt : ∀ p ∈ A, p.2 < store.length) (b : Alert) :
    A.filterMap (fun p => (store ++ [b]).get? p.2) =
      A.filterMap (fun p => store.get? p.2) :=
  List.filterMap_congr (fun p hp => List.get?_append (hlt p hp))

theorem records_store_set {A : List (String × Nat)} {store : List Alert}
    {i : Nat} (hne : ∀ p ∈ A, p.2 ≠ i) (x : Alert) :
    A.filterMap (fun p => (store.set i x).get? p.2) =
      A.filterMap (fun p => store.get? p.2) :=
  List.filterMap_congr (fun p hp => List.get?_set_ne _ _ (Ne.symm (hne p hp)))

/-! ### Helper lemmas: unfolding the manager operations -/

theorem is_suppressed_of_lookup_none {st : ManagerState} {a : Alert} (now : ℚ)
    (h : lookupKey (suppression_key a.hostname a.metric_type.value)
      st.suppression_rules = none) :
    is_suppressed st now a = (false, st) := by
  unfold is_suppressed
  dsimp only
  rw [h]

theorem process_alert_of_unsuppressed {st : ManagerState} {a : Alert} (now : ℚ)
    (h : lookupKey (suppression_key a.hostname a.metric_type.value)
      st.suppression_rules = none) :
    process_alert st now a =
      match find_similar_alert st a with
      | some i => update_existing_alert st i a
      | none => create_new_alert st a := by
  unfold process_alert
  rw [is_suppressed_of_lookup_none now h]

theorem update_existing_eq {st : ManagerState} {i : Nat} {e : Alert} (n : Alert)
    (hget : st.store.get? i = some e) :
    update_existing_alert st i n =
      ({ st with store := st.store.set i (updatedCell e n) },
        if n.level.value ≠ e.level.value then 1 else 0) := by
  unfold update_existing_alert updatedCell
  rw [hget]
  by_cases h : n.level.value ≠ e.level.value
  · simp only [if_pos h]
  · simp only [if_neg h]

/-- The active dict after `_create_new_alert`, decomposed around the new
entry, together with the facts the well-formedness proof needs about the
remaining entries. -/
theorem create_decomp {st : ManagerState} (a : Alert) (hwf : Wf st) :
    ∃ A1 A2,
      (create_new_alert st a).1.active_alerts =
        A1 ++ (a.id, st.store.length) :: A2 ∧
      (∀ q ∈ A1 ++ A2, q ∈ st.active_alerts) ∧
      ((A1 ++ A2).map Prod.fst).Nodup ∧
      (∀ q ∈ A1 ++ A2, q.1 ≠ a.id) ∧
      ((A1 ++ A2).map Prod.snd).Nodup ∧
      ((A1.filterMap (fun p => st.store.get? p.2) ++
        A2.filterMap (fun p => st.store.get? p.2)).map pairOf).Nodup ∧
      (∀ x, x ∈ A1.filterMap (fun p => st.store.get? p.2) ++
          A2.filterMap (fun p => st.store.get? p.2) → x ∈ get_active_alerts st) ∧
      get_active_alerts (create_new_alert st a).1 =
        A1.filterMap (fun p => st.store.get? p.2) ++ a ::
          A2.filterMap (fun p => st.store.get? p.2) := by
  have hrec : ∀ A1 A2 : List (String × Nat),
      (create_new_alert st a).1.active_alerts = A1 ++ (a.id, st.store.length) :: A2 →
      (∀ q ∈ A1 ++ A2, q ∈ st.active_alerts) →
      get_active_alerts (create_new_alert st a).1 =
        A1.filterMap (fun p => st.store.get? p.2) ++ a ::
          A2.filterMap (fun p => st.store.get? p.2) := by
    intro A1 A2 hact hmem
    have hlt : ∀ q ∈ A1 ++ A2, q.2 < st.store.length := fun q hq =>
      hwf.idx_lt q (hmem q hq)
    show ((create_new_alert st a).1.active_alerts).filterMap
      (fun p => (create_new_alert st a).1.store.get? p.2) = _
    rw [show (create_new_alert st a).1.store = st.store ++ [a] from rfl, hact,
      List.filterMap_append, List.filterMap_cons,
      records_store_extend (fun q hq => hlt q (List.mem_append.mpr (Or.inl hq))) a,
      records_store_extend (fun q hq => hlt q (List.mem_append.mpr (Or.inr hq))) a,
      List.get?_concat_length]
  have hact0 : (create_new_alert st a).1.active_alerts =
      setKey a.id st.store.length st.active_alerts := rfl
  cases h : st.active_alerts.any (fun p => p.1 = a.id) with
  | false =>
    have hact : (create_new_alert st a).1.active_alerts =
        st.active_alerts ++ (a.id, st.store.length) :: [] := by
      rw [hact0, setKey_of_not_mem _ h]
    have hmem : ∀ q ∈ st.active_alerts ++ ([] : List (String × Nat)),
        q ∈ st.active_alerts := by simp
    refine ⟨st.active_alerts, [], hact, hmem, by simpa using hwf.keys_nodup,
      ?_, by simpa using hwf.idx_nodup, ?_, ?_, hrec _ _ hact hmem⟩
    · intro q hq
      rw [List.append_nil] at hq
      have := List.any_eq_false.mp h q hq
      simpa using this
    · simpa [get_active_alerts] using hwf.pairs_nodup
    · intro x hx
      simpa [get_active_alerts] using hx
  | true =>
    obtain ⟨A1, p, A2, hsplit, hpk, h1, h2, hset⟩ :=
      setKey_decomp (l := st.active_alerts) st.store.length hwf.keys_nodup h
    rw [← hact0] at hset
    have hmem : ∀ q ∈ A1 ++ A2, q ∈ st.active_alerts := by
      intro q hq
      rw [hsplit]
      rcases List.mem_append.mp hq with hq | hq
      · exact List.mem_append.mpr (Or.inl hq)
      · exact List.mem_append.mpr (Or.inr (List.mem_cons_of_mem p hq))
    have hkeys : ((A1 ++ A2).map Prod.fst).Nodup := by
      have := hwf.keys_nodup
      rw [hsplit, List.map_append, List.map_cons] at this
      rw [List.map_append]
      exact (List.nodup_cons.mp (List.nodup_middle.mp this)).2
    have hne : ∀ q ∈ A1 ++ A2, q.1 ≠ a.id := by
      intro q hq
      rcases List.mem_append.mp hq with hq | hq
      · exact hpk ▸ h1 q hq
      · exact hpk ▸ h2 q hq
    have hsnd : ((A1 ++ A2).map Prod.snd).Nodup := by
      have := hwf.idx_nodup
      rw [hsplit, List.map_append, List.map_cons] at this
      rw [List.map_append]
      exact (List.nodup_cons.mp (List.nodup_middle.mp this)).2
    have hplt : p.2 < st.store.length :=
      hwf.idx_lt p (hsplit ▸ List.mem_append.mpr (Or.inr (List.mem_cons_self p A2)))
    obtain ⟨ep, hep⟩ : ∃ ep, st.store.get? p.2 = some ep :=
      ⟨_, List.get?_eq_get hplt⟩
    have hrecs : get_active_alerts st =
        A1.filterMap (fun q => st.store.get? q.2) ++ ep ::
          A2.filterMap (fun q => st.store.get? q.2) := by
      rw [get_active_alerts, hsplit, List.filterMap_append, List.filterMap_cons,
        hep]
    have hpairs : ((A1.filterMap (fun q => st.store.get? q.2) ++
        A2.filterMap (fun q => st.store.get? q.2)).map pairOf).Nodup := by
      have := hwf.pairs_nodup
      rw [hrecs, List.map_append, List.map_cons] at this
      rw [List.map_append]
      exact (List.nodup_cons.mp (List.nodup_middle.mp this)).2
    refine ⟨A1, A2, hset, hmem, hkeys, hne, hsnd, hpairs, ?_, hrec _ _ hset hmem⟩
    intro x hx
    rw [hrecs]
    rcases List.mem_append.mp hx with hx | hx
    · exact List.mem_append.mpr (Or.inl hx)
    · exact List.mem_append.mpr (Or.inr (List.mem_cons_of_mem ep hx))

/-- The active dict decomposed around the entry found by
`_find_similar_alert`, together with the facts needed downstream. -/
theorem update_decomp {st : ManagerState} {a : Alert} {i : Nat} (hwf : Wf st)
    (hfind : find_similar_alert st a = some i) :
    ∃ A1 p A2 e,
      st.active_alerts = A1 ++ p :: A2 ∧ p.2 = i ∧
      st.store.get? i = some e ∧ similar a e = true ∧
      (∀ q ∈ A1 ++ A2, q.2 ≠ i) ∧
      get_active_alerts st =
        A1.filterMap (fun q => st.store.get? q.2) ++ e ::
          A2.filterMap (fun q => st.store.get? q.2) := by
  obtain ⟨A1, p, A2, e, hsplit, hpi, hget, hsim⟩ := find_similar_some_elim hfind
  have hne : ∀ q ∈ A1 ++ A2, q.2 ≠ i := by
    have hnd := hwf.idx_nodup
    rw [hsplit, List.map_append, List.map_cons] at hnd
    have hpn : p.2 ∉ (A1.map Prod.snd ++ A2.map Prod.snd) :=
      (List.nodup_cons.mp (List.nodup_middle.mp hnd)).1
    intro q hq hqi
    refine hpn ?_
    rw [hpi]
    rcases List.mem_append.mp hq with hq | hq
    · exact List.mem_append.mpr (Or.inl (hqi ▸ List.mem_map_of_mem Prod.snd hq))
    · exact List.mem_append.mpr (Or.inr (hqi ▸ List.mem_map_of_mem Prod.snd hq))
  refine ⟨A1, p, A2, e, hsplit, hpi, hget, hsim, hne, ?_⟩
  rw [get_active_alerts, hsplit, List.filterMap_append, List.filterMap_cons,
    hpi, hget]

/-- Effect of one unsuppressed `process_alert` of a factory-fresh alert on
a well-formed state: the active records afterwards contain exactly one
record matching the alert's `(hostname, metric_type)` dedup identity, that
record carries the incoming `current_value` and `timestamp`, the
suppression table is untouched, and the notifier fires once on creation,
once on a level change, and not otherwise. -/
theorem process_effect {st : ManagerState} {a : Alert} (now : ℚ) (hwf : Wf st)
    (hfresh : freshAlert a)
    (hsupp : lookupKey (suppression_key a.hostname a.metric_type.value)
      st.suppression_rules = none) :
    ∃ R1 anew R2,
      get_active_alerts (process_alert st now a).1 = R1 ++ anew :: R2 ∧
      (∀ x ∈ R1 ++ R2, similar a x = false) ∧
      similar a anew = true ∧
      anew.current_value = a.current_value ∧ anew.timestamp = a.timestamp ∧
      (process_alert st now a).1.suppression_rules = st.suppression_rules ∧
      ((find_similar_alert st a = none ∧ anew = a ∧
          (process_alert st now a).2 = 1) ∨
        (∃ i e, find_similar_alert st a = some i ∧ st.store.get? i = some e ∧
          similar a e = true ∧ e ∈ get_active_alerts st ∧ anew = updatedCell e a ∧
          (process_alert st now a).2 = (if a.level.value ≠ e.level.value then 1 else 0))) := by
  rw [process_alert_of_unsuppressed now hsupp]
  cases hfind : find_similar_alert st a with
  | none =>
    dsimp only
    obtain ⟨A1, A2, -, -, -, -, -, -, hrecs_mem, hrec⟩ := create_decomp a hwf
    refine ⟨A1.filterMap (fun p => st.store.get? p.2), a,
      A2.filterMap (fun p => st.store.get? p.2), hrec, ?_, similar_self hfresh.1,
      rfl, rfl, rfl, Or.inl ⟨rfl, rfl, rfl⟩⟩
    intro x hx
    exact find_similar_none_records hfind x (hrecs_mem x hx)
  | some i =>
    dsimp only
    obtain ⟨A1, p, A2, e, hsplit, hpi, hget, hsim, hne, hrecs⟩ :=
      update_decomp hwf hfind
    rw [update_existing_eq a hget]
    refine ⟨A1.filterMap (fun q => st.store.get? q.2), updatedCell e a,
      A2.filterMap (fun q => st.store.get? q.2), ?_, ?_, ?_, ?_, ?_, rfl,
      Or.inr ⟨i, e, rfl, hget, hsim, ?_, rfl, rfl⟩⟩
    · show (st.active_alerts).filterMap
        (fun q => (st.store.set i (updatedCell e a)).get? q.2) = _
      rw [hsplit, List.filterMap_append, List.filterMap_cons, hpi,
        records_store_set (fun q hq => hne q (List.mem_append.mpr (Or.inl hq))) _,
        records_store_set (fun q hq => hne q (List.mem_append.mpr (Or.inr hq))) _]
      rw [List.get?_set_eq]
      rw [hget]
      rfl
    · intro x hx
      have hx' : x ∈ get_active_alerts st := by
        rw [hrecs]
        rcases List.mem_append.mp hx with hx | hx
        · exact List.mem_append.mpr (Or.inl hx)
        · exact List.mem_append.mpr (Or.inr (List.mem_cons_of_mem e hx))
      by_contra hxs
      rw [Bool.not_eq_false] at hxs
      have hpx : pairOf x = pairOf e :=
        (pairOf_eq_of_similar hxs).trans (pairOf_eq_of_similar hsim).symm
      have hnd := hwf.pairs_nodup
      rw [hrecs, List.map_append, List.map_cons] at hnd
      have hpn : pairOf e ∉ ((A1.filterMap (fun q => st.store.get? q.2)).map pairOf
          ++ (A2.filterMap (fun q => st.store.get? q.2)).map pairOf) :=
        (List.nodup_cons.mp (List.nodup_middle.mp hnd)).1
      refine hpn ?_
      rw [← hpx]
      rcases List.mem_append.mp hx with hx | hx
      · exact List.mem_append.mpr (Or.inl (List.mem_map_of_mem pairOf hx))
      · exact List.mem_append.mpr (Or.inr (List.mem_map_of_mem pairOf hx))
    · have hsf := similar_fields hsim
      unfold updatedCell
      by_cases hl : a.level.value ≠ e.level.value <;>
        simp [hl, similar, hsf.1, hsf.2.1, hsf.2.2]
    · unfold updatedCell
      by_cases hl : a.level.value ≠ e.level.value <;> simp [hl]
    · unfold updatedCell
      by_cases hl : a.level.value ≠ e.level.value <;> simp [hl]
    · rw [hrecs]
      exact List.mem_append.mpr (Or.inr (List.mem_cons_self e _))

/-! ### Preservation of well-formedness by every operation -/

theorem updatedCell_resolved (e n : Alert) : (updatedCell e n).resolved = e.resolved := by
  unfold updatedCell
  split <;> rfl

theorem updatedCell_resolved_at (e n : Alert) :
    (updatedCell e n).resolved_at = e.resolved_at := by
  unfold updatedCell
  split <;> rfl

theorem updatedCell_id (e n : Alert) : (updatedCell e n).id = e.id := by
  unfold updatedCell
  split <;> rfl

theorem updatedCell_pairOf (e n : Alert) : pairOf (updatedCell e n) = pairOf e := by
  unfold updatedCell pairOf
  split <;> rfl

theorem similar_of_pair {a x : Alert} (hp : pairOf x = (a.hostname, a.metric_type))
    (hr : x.resolved = false) : similar a x = true := by
  rw [pairOf, Prod.mk.injEq] at hp
  simp [similar, hp.1, hp.2, hr]

theorem mem_of_mem_records {st : ManagerState} {x : Alert}
    (hx : x ∈ get_active_alerts st) :
    ∃ p ∈ st.active_alerts, st.store.get? p.2 = some x := by
  rw [get_active_alerts, List.mem_filterMap] at hx
  exact hx

theorem records_resolved_false {st : ManagerState} (hwf : Wf st) {x : Alert}
    (hx : x ∈ get_active_alerts st) : x.resolved = false := by
  obtain ⟨p, hp, hget⟩ := mem_of_mem_records hx
  exact (hwf.cell_ok p hp x hget).1

theorem wf_set_suppression {st : ManagerState} (hwf : Wf st)
    (r : List (String × ℚ)) : Wf { st with suppression_rules := r } :=
  ⟨hwf.idx_lt, hwf.keys_nodup, hwf.idx_nodup, hwf.cell_ok, hwf.pairs_nodup,
    hwf.hist_eq, hwf.res_iff⟩

theorem is_suppressed_snd_cases (st : ManagerState) (now : ℚ) (a : Alert) :
    (is_suppressed st now a).2 = st ∨
    (is_suppressed st now a).2 = { st with suppression_rules := st.suppression_rules.filter (fun p => p.1 ≠ suppression_key a.hostname a.metric_type.value) } := by
  unfold is_suppressed
  dsimp only
  rcases lookupKey (suppression_key a.hostname a.metric_type.value)
      st.suppression_rules with - | suppressionEnd
  · exact Or.inl rfl
  · dsimp only
    by_cases h : now < suppressionEnd
    · rw [if_pos h]
      exact Or.inl rfl
    · rw [if_neg h]
      exact Or.inr rfl

theorem wf_update {st : ManagerState} (hwf : Wf st) (i : Nat) (n : Alert) :
    Wf (update_existing_alert st i n).1 := by
  rcases hget : st.store.get? i with - | e
  · have : update_existing_alert st i n = (st, 0) := by
      unfold update_existing_alert
      rw [hget]
    rw [this]
    exact hwf
  · rw [update_existing_eq n hget]
    have hlen : (st.store.set i (updatedCell e n)).length = st.store.length :=
      List.length_set st.store i (updatedCell e n)
    have hget' : ∀ j, j ≠ i →
        (st.store.set i (updatedCell e n)).get? j = st.store.get? j :=
      fun j hj => List.get?_set_ne _ _ (Ne.symm hj)
    have hgeti : (st.store.set i (updatedCell e n)).get? i = some (updatedCell e n) := by
      rw [List.get?_set_eq, hget]
      rfl
    refine ⟨?_, hwf.keys_nodup, hwf.idx_nodup, ?_, ?_, ?_, ?_⟩
    · intro p hp
      rw [hlen]
      exact hwf.idx_lt p hp
    · intro p hp x hx
      by_cases hpi : p.2 = i
      · rw [hpi, hgeti] at hx
        obtain rfl := Option.some.inj hx
        have hold := hwf.cell_ok p hp e (hpi ▸ hget)
        exact ⟨(updatedCell_resolved e n).trans hold.1,
          (updatedCell_id e n).trans hold.2⟩
      · rw [hget' p.2 hpi] at hx
        exact hwf.cell_ok p hp x hx
    · have heq : (get_active_alerts { st with
          store := st.store.set i (updatedCell e n) }).map pairOf =
          (get_active_alerts st).map pairOf := by
        rw [get_active_alerts, get_active_alerts, List.map_filterMap,
          List.map_filterMap]
        refine List.filterMap_congr ?_
        intro p hp
        by_cases hpi : p.2 = i
        · rw [hpi, hgeti, hget]
          simp [updatedCell_pairOf]
        · rw [hget' p.2 hpi]
      rw [heq]
      exact hwf.pairs_nodup
    · show st.alert_history = List.range (st.store.set i (updatedCell e n)).length
      rw [hlen]
      exact hwf.hist_eq
    · intro x hx
      rcases List.mem_or_eq_of_mem_set hx with hx | rfl
      · exact hwf.res_iff x hx
      · rw [updatedCell_resolved, updatedCell_resolved_at]
        exact hwf.res_iff e (List.get?_mem hget)

theorem wf_create {st : ManagerState} {a : Alert} (hwf : Wf st)
    (hfresh : freshAlert a) (hfind : find_similar_alert st a = none) :
    Wf (create_new_alert st a).1 := by
  obtain ⟨A1, A2, hact, hmem, hkeys, hne, hsnd, hpairs, hrecs_mem, hrec⟩ :=
    create_decomp a hwf
  have hlen : (create_new_alert st a).1.store.length = st.store.length + 1 := by
    show (st.store ++ [a]).length = _
    simp
  have hstore : (create_new_alert st a).1.store = st.store ++ [a] := rfl
  have hlt : ∀ q ∈ A1 ++ A2, q.2 < st.store.length := fun q hq =>
    hwf.idx_lt q (hmem q hq)
  refine ⟨?_, ?_, ?_, ?_, ?_, ?_, ?_⟩
  · intro p hp
    rw [hact] at hp
    rw [hlen]
    rcases List.mem_append.mp hp with hp | hp
    · exact Nat.lt_succ_of_lt (hlt p (List.mem_append.mpr (Or.inl hp)))
    · rcases List.mem_cons.mp hp with rfl | hp
      · exact Nat.lt_succ_self _
      · exact Nat.lt_succ_of_lt (hlt p (List.mem_append.mpr (Or.inr hp)))
  · rw [hact, List.map_append, List.map_cons]
    rw [List.nodup_middle, List.nodup_cons, ← List.map_append]
    refine ⟨?_, hkeys⟩
    intro hmm
    obtain ⟨q, hq, hq2⟩ := List.mem_map.mp hmm
    exact hne q hq hq2
  · rw [hact, List.map_append, List.map_cons]
    rw [List.nodup_middle, List.nodup_cons, ← List.map_append]
    refine ⟨?_, hsnd⟩
    intro hmm
    obtain ⟨q, hq, hq2⟩ := List.mem_map.mp hmm
    exact absurd hq2 (Nat.ne_of_lt (hlt q hq))
  · intro p hp x hx
    rw [hact] at hp
    rcases List.mem_append.mp hp with hp | hp
    · rw [hstore, List.get?_append (hlt p (List.mem_append.mpr (Or.inl hp)))] at hx
      exact hwf.cell_ok p (hmem p (List.mem_append.mpr (Or.inl hp))) x hx
    · rcases List.mem_cons.mp hp with rfl | hp
      · rw [hstore, List.get?_concat_length] at hx
        obtain rfl := Option.some.inj hx
        exact ⟨hfresh.1, rfl⟩
      · rw [hstore, List.get?_append (hlt p (List.mem_append.mpr (Or.inr hp)))] at hx
        exact hwf.cell_ok p (hmem p (List.mem_append.mpr (Or.inr hp))) x hx
  · rw [hrec, List.map_append, List.map_cons, List.nodup_middle, List.nodup_cons,
      ← List.map_append]
    refine ⟨?_, hpairs⟩
    intro hmm
    obtain ⟨x, hx, hx2⟩ := List.mem_map.mp hmm
    have hxr : x.resolved = false :=
      records_resolved_false hwf (hrecs_mem x hx)
    have hsx : similar a x = true := by
      refine similar_of_pair ?_ hxr
      rw [hx2]
      rfl
    rw [find_similar_none_records hfind x (hrecs_mem x hx)] at hsx
    exact Bool.false_ne_true hsx
  · show st.alert_history ++ [st.store.length] = List.range (st.store ++ [a]).length
    rw [hwf.hist_eq]
    simp [List.range_succ]
  · intro x hx
    rcases List.mem_append.mp hx with hx | hx
    · exact hwf.res_iff x hx
    · obtain rfl := List.mem_singleton.mp hx
      rw [hfresh.1, hfresh.2]
      simp

theorem lookupKey_decomp {l : List (String × α)} {k : String} {v : α}
    (h : lookupKey k l = some v) :
    ∃ l1 p l2, l = l1 ++ p :: l2 ∧ p.1 = k ∧ p.2 = v ∧ ∀ q ∈ l1, q.1 ≠ k := by
  induction l with
  | nil => simp [lookupKey] at h
  | cons q l ih =>
    by_cases hq : q.1 = k
    · rw [lookupKey, if_pos hq] at h
      exact ⟨[], q, l, rfl, hq, Option.some.inj h, by simp⟩
    · rw [lookupKey, if_neg hq] at h
      obtain ⟨l1, p, l2, rfl, hp1, hp2, hl1⟩ := ih h
      refine ⟨q :: l1, p, l2, rfl, hp1, hp2, ?_⟩
      intro r hr
      rcases List.mem_cons.mp hr with rfl | hr
      · exact hq
      · exact hl1 r hr

theorem wf_resolve {st : ManagerState} (hwf : Wf st) (now : ℚ) (aid : String) :
    Wf (resolve_alert st now aid) := by
  unfold resolve_alert
  rcases hl : lookupKey aid st.active_alerts with - | i
  · exact hwf
  · dsimp only
    rcases hget : st.store.get? i with - | e
    · exact hwf
    · dsimp only
      obtain ⟨A1, p, A2, hsplit, hp1, hp2, hA1⟩ := lookupKey_decomp hl
      have hA2 : ∀ q ∈ A2, q.1 ≠ aid := by
        intro q hq
        have hnd := hwf.keys_nodup
        rw [hsplit, List.map_append, List.map_cons] at hnd
        have hpn : p.1 ∉ (A1.map Prod.fst ++ A2.map Prod.fst) :=
          (List.nodup_cons.mp (List.nodup_middle.mp hnd)).1
        intro hqk
        refine hpn (List.mem_append.mpr (Or.inr ?_))
        rw [hp1, ← hqk]
        exact List.mem_map_of_mem Prod.fst hq
      have hne : ∀ q ∈ A1 ++ A2, q.2 ≠ i := by
        have hnd := hwf.idx_nodup
        rw [hsplit, List.map_append, List.map_cons] at hnd
        have hpn : p.2 ∉ (A1.map Prod.snd ++ A2.map Prod.snd) :=
          (List.nodup_cons.mp (List.nodup_middle.mp hnd)).1
        intro q hq hqi
        refine hpn ?_
        rw [hp2]
        rcases List.mem_append.mp hq with hq | hq
        · exact List.mem_append.mpr (Or.inl (hqi ▸ List.mem_map_of_mem Prod.snd hq))
        · exact List.mem_append.mpr (Or.inr (hqi ▸ List.mem_map_of_mem Prod.snd hq))
      have hfilter : st.active_alerts.filter (fun q => q.1 ≠ aid) = A1 ++ A2 := by
        rw [hsplit, List.filter_append, List.filter_cons]
        rw [if_neg (by simp [hp1])]
        rw [List.filter_eq_self.mpr (fun q hq => by simpa using hA1 q hq),
          List.filter_eq_self.mpr (fun q hq => by simpa using hA2 q hq)]
      set e' : Alert := { e with resolved := true, resolved_at := some now } with he'
      have hlen : (st.store.set i e').length = st.store.length :=
        List.length_set st.store i e'
      have hget' : ∀ j, j ≠ i → (st.store.set i e').get? j = st.store.get? j :=
        fun j hj => List.get?_set_ne _ _ (Ne.symm hj)
      have hmemA : ∀ q ∈ A1 ++ A2, q ∈ st.active_alerts := by
        intro q hq
        rw [hsplit]
        rcases List.mem_append.mp hq with hq | hq
        · exact List.mem_append.mpr (Or.inl hq)
        · exact List.mem_append.mpr (Or.inr (List.mem_cons_of_mem p hq))
      refine ⟨?_, ?_, ?_, ?_, ?_, ?_, ?_⟩
      · intro q hq
        rw [hfilter] at hq
        rw [hlen]
        exact hwf.idx_lt q (hmemA q hq)
      · rw [hfilter]
        have hnd := hwf.keys_nodup
        rw [hsplit, List.map_append, List.map_cons] at hnd
        rw [List.map_append]
        exact (List.nodup_cons.mp (List.nodup_middle.mp hnd)).2
      · rw [hfilter]
        have hnd := hwf.idx_nodup
        rw [hsplit, List.map_append, List.map_cons] at hnd
        rw [List.map_append]
        exact (List.nodup_cons.mp (List.nodup_middle.mp hnd)).2
      · intro q hq x hx
        rw [hfilter] at hq
        rw [hget' q.2 (hne q hq)] at hx
        exact hwf.cell_ok q (hmemA q hq) x hx
      · show ((st.active_alerts.filter (fun q => q.1 ≠ aid)).filterMap
          (fun q => (st.store.set i e').get? q.2)).map pairOf |>.Nodup
        rw [hfilter, List.filterMap_append,
          records_store_set (fun q hq => hne q (List.mem_append.mpr (Or.inl hq))) e',
          records_store_set (fun q hq => hne q (List.mem_append.mpr (Or.inr hq))) e',
          ← List.filterMap_append]
        have hrecs : get_active_alerts st =
            A1.filterMap (fun q => st.store.get? q.2) ++ e ::
              A2.filterMap (fun q => st.store.get? q.2) := by
          rw [get_active_alerts, hsplit, List.filterMap_append,
            List.filterMap_cons, hp2, hget]
        have hnd := hwf.pairs_nodup
        rw [hrecs, List.map_append, List.map_cons] at hnd
        rw [List.filterMap_append, List.map_append]
        exact (List.nodup_cons.mp (List.nodup_middle.mp hnd)).2
      · show st.alert_history = List.range (st.store.set i e').length
        rw [hlen]
        exact hwf.hist_eq
      · intro x hx
        rcases List.mem_or_eq_of_mem_set hx with hx | rfl
        · exact hwf.res_iff x hx
        · simp [he']

theorem wf_suppress {st : ManagerState} (hwf : Wf st) (now : ℚ)
    (hostname metric : String) (d : ℚ) :
    Wf (suppress_alerts st now hostname metric d) := by
  unfold suppress_alerts
  exact wf_set_suppression hwf _

theorem wf_process {st : ManagerState} {a : Alert} (hwf : Wf st)
    (hfresh : freshAlert a) (now : ℚ) : Wf (process_alert st now a).1 := by
  unfold process_alert
  rcases hs : is_suppressed st now a with ⟨b, st1⟩
  have hwf1 : Wf st1 := by
    rcases is_suppressed_snd_cases st now a with h | h <;>
      rw [hs] at h <;> dsimp only at h <;> rw [h]
    · exact hwf
    · exact wf_set_suppression hwf _
  cases b with
  | true => exact hwf1
  | false =>
    dsimp only
    cases hfind : find_similar_alert st1 a with
    | some i => exact wf_update hwf1 i a
    | none => exact wf_create hwf1 hfresh hfind

theorem wf_empty : Wf emptyManager := by
  refine ⟨?_, ?_, ?_, ?_, ?_, ?_, ?_⟩ <;>
    simp [emptyManager, get_active_alerts]

theorem runOps_cons (st : ManagerState) (op : MgrOp) (ops : List MgrOp) :
    runOps st (op :: ops) = runOps (applyOp st op) ops := rfl

theorem wf_applyOp {st : ManagerState} {op : MgrOp} (hwf : Wf st)
    (hf : opFresh op) : Wf (applyOp st op) := by
  cases op with
  | process now a => exact wf_process hwf hf now
  | resolve now aid => exact wf_resolve hwf now aid
  | suppress now h m d => exact wf_suppress hwf now h m d

theorem wf_runOps : ∀ (ops : List MgrOp) (st : ManagerState), Wf st →
    (∀ op ∈ ops, opFresh op) → Wf (runOps st ops) := by
  intro ops
  induction ops with
  | nil => exact fun st hwf _ => hwf
  | cons op ops ih =>
    intro st hwf hf
    rw [runOps_cons]
    exact ih _ (wf_applyOp hwf (hf op (List.mem_cons_self op ops)))
      (fun o ho => hf o (List.mem_cons_of_mem op ho))

theorem wf_of_reachable {st : ManagerState} (h : Reachable st) : Wf st := by
  obtain ⟨ops, hf, rfl⟩ := h
  exact wf_runOps ops emptyManager wf_empty hf

/-! ### Claim theorems -/

/-- C3: in any manager state, after `suppress_alerts(hostname, metric, d)`
at time `t0`, every `process_alert` call for an alert with that
`(hostname, metric_type)` evaluated before the stored expiry `t0 + d`
returns the state completely unchanged with zero notifier invocations;
once `now` reaches the expiry, the rule is deleted on that evaluation
(its key no longer resolves) and the call behaves exactly as a
`process_alert` on the state with the rule removed. -/
theorem suppression_window (st : ManagerState) (t0 d : ℚ)
    (hostname metric : String) (a : Alert) (hh : a.hostname = hostname)
    (hm : a.metric_type.value = metric) :
    let st1 := suppress_alerts st t0 hostname metric d
    let st2 : ManagerState := { st1 with suppression_rules := st1.suppression_rules.filter (fun p => p.1 ≠ suppression_key hostname metric) }
    (∀ now, now < t0 + d → process_alert st1 now a = (st1, 0)) ∧
    (∀ now, t0 + d ≤ now →
      lookupKey (suppression_key hostname metric) st2.suppression_rules = none ∧
      process_alert st1 now a = process_alert st2 now a) := by
  intro st1 st2
  have hkey : suppression_key a.hostname a.metric_type.value =
      suppression_key hostname metric := by rw [hh, hm]
  have hrules : st1.suppression_rules =
      setKey (suppression_key hostname metric) (t0 + d) st.suppression_rules := rfl
  have hlook : lookupKey (suppression_key hostname metric) st1.suppression_rules =
      some (t0 + d) := by
    rw [hrules]
    exact lookupKey_setKey_self _ _ _
  constructor
  · intro now hlt
    unfold process_alert is_suppressed
    dsimp only
    rw [hkey, hlook]
    dsimp only
    rw [if_pos hlt]
  · intro now hge
    have hsupp2 : lookupKey (suppression_key hostname metric)
        st2.suppression_rules = none := lookupKey_filter_self _ _
    refine ⟨hsupp2, ?_⟩
    have hns : is_suppressed st1 now a = (false, st2) := by
      unfold is_suppressed
      dsimp only
      rw [hkey, hlook]
      dsimp only
      rw [if_neg (not_lt.mpr hge)]
    have hns2 : is_suppressed st2 now a = (false, st2) :=
      is_suppressed_of_lookup_none now (hkey ▸ hsupp2)
    unfold process_alert
    rw [hns, hns2]

/-- Witness for C3 at a concrete suppression of `(h1, cpu_usage)`. -/
theorem suppression_window_witness :
    process_alert (suppress_alerts emptyManager 0 "h1" "cpu_usage" 10) 5
      sampleAlert = (suppress_alerts emptyManager 0 "h1" "cpu_usage" 10, 0) :=
  (suppression_window emptyManager 0 10 "h1" "cpu_usage" sampleAlert rfl rfl).1
    5 (by norm_num)

/-- C8: from the empty manager, `process(alert)` then `resolve(alert.id)`
leaves the active set empty with `resolved_alerts = 1`; and in every state
`statistics()` reports the history length, the active count, and a
resolved count equal to total minus active. -/
theorem resolution_roundtrip_statistics (a : Alert) (n1 n2 : ℚ) :
    get_active_alerts (resolve_alert (process_alert emptyManager n1 a).1 n2 a.id) = [] ∧
    (get_alert_statistics (resolve_alert (process_alert emptyManager n1 a).1 n2 a.id)).resolved_alerts = 1 ∧
    (∀ st : ManagerState,
      (get_alert_statistics st).total_alerts = st.alert_history.length ∧
      (get_alert_statistics st).active_alerts = st.active_alerts.length ∧
      (get_alert_statistics st).resolved_alerts =
        ((get_alert_statistics st).total_alerts : Int) -
          (get_alert_statistics st).active_alerts) := by
  have h1 : (process_alert emptyManager n1 a).1 =
      ⟨[a], [(a.id, 0)], [0], []⟩ := rfl
  have h2 : lookupKey a.id [(a.id, (0 : Nat))] = some 0 := by
    rw [lookupKey, if_pos rfl]
  have h3 : resolve_alert (⟨[a], [(a.id, 0)], [0], []⟩ : ManagerState) n2 a.id =
      ⟨[{ a with resolved := true, resolved_at := some n2 }], [], [0], []⟩ := by
    unfold resolve_alert
    rw [h2]
    dsimp only
    rw [show ([a].get? 0) = some a from rfl]
    simp [List.filter_cons]
  rw [h1, h3]
  refine ⟨rfl, rfl, ?_⟩
  intro st
  exact ⟨rfl, rfl, rfl⟩

/-- C5 counterexample: the claim's load tier ("load > 8 ⇒ severe") fails on
the code — at 1-minute load 9 the detector emits the *elevated* label, not
the severe one (the code's tiers are > 10 / > 8). -/
theorem detector_load_tier_counterexample :
    ¬ (∀ d : MonitoringData, d.cpu_load_1min > 8 →
        "系统负载严重过高" ∈ detect_issues_locally d) := by
  intro hcl
  have h := hcl snapLoad9 (by norm_num [snapLoad9])
  have heval : detect_issues_locally snapLoad9 = ["系统负载偏高"] := by
    norm_num [detect_issues_locally, snapLoad9, memoryUsagePercent]
  rw [heval] at h
  exact absurd (List.mem_singleton.mp h) (by decide)

/-- C5 (amended): the local detector emits issues exactly per the code's
tiered table — CPU > 95 severe / > 80 elevated; memory ratio > 95 / > 85;
1-minute load > 10 severe / > 8 elevated — plus the compound I/O label
exactly when load > 5 and CPU < 50; and a snapshot with CPU ≤ 80, memory
ratio ≤ 85 and load ≤ 5 yields the empty issue list. -/
theorem detector_thresholds (d : MonitoringData) (hm : 0 < d.memory_total) :
    ("CPU使用率严重过高" ∈ detect_issues_locally d ↔ 95 < d.cpu_usage) ∧
    ("CPU使用率偏高" ∈ detect_issues_locally d ↔
      (80 < d.cpu_usage ∧ d.cpu_usage ≤ 95)) ∧
    ("内存严重不足" ∈ detect_issues_locally d ↔ 95 < memoryUsagePercent d) ∧
    ("内存使用率偏高" ∈ detect_issues_locally d ↔
      (85 < memoryUsagePercent d ∧ memoryUsagePercent d ≤ 95)) ∧
    ("系统负载严重过高" ∈ detect_issues_locally d ↔ 10 < d.cpu_load_1min) ∧
    ("系统负载偏高" ∈ detect_issues_locally d ↔
      (8 < d.cpu_load_1min ∧ d.cpu_load_1min ≤ 10)) ∧
    ("负载高但CPU低，可能存在I/O瓶颈" ∈ detect_issues_locally d ↔
      (5 < d.cpu_load_1min ∧ d.cpu_usage < 50)) ∧
    (d.cpu_usage ≤ 80 → memoryUsagePercent d ≤ 85 → d.cpu_load_1min ≤ 5 →
      detect_issues_locally d = []) := by
  unfold detect_issues_locally
  split_ifs with h1 h2 h3 h4 h5 h6 h7 <;>
    simp_all [not_lt] <;>
    first
    | linarith
    | (intro hx1; linarith)

/-- Witness for C5 (amended) at the end-to-end snapshot. -/
theorem detector_thresholds_witness :
    (0 : ℚ) < snapH1.memory_total ∧
      "CPU使用率严重过高" ∈ detect_issues_locally snapH1 :=
  ⟨by norm_num [snapH1],
    ((detector_thresholds snapH1 (by norm_num [snapH1])).1).mpr
      (by norm_num [snapH1])⟩

/-- C4 (evaluation at the failing input): on the snapshot host `h1`,
CPU 97 %, memory ratio 60 %, load 2.0, local detection yields exactly the
severe-CPU issue and the gate fires, but the level classifier of
`_handle_alerts` — whose keywords "Critical"/"Extremely"/"High" never occur
in the Chinese issue text — maps it to `info`, not `critical`; the manager
then creates exactly one `info`-level CPU alert and notifies once. -/
theorem analyze_anomalies_eq (cfg : AgentConfig) (now : ℚ) (d : MonitoringData)
    (o : AnalyzeOracle) (hnr : o.pipeline_raises = false) :
    (analyze cfg now d o).result.anomalies_detected = detect_issues_locally d := by
  unfold analyze
  rw [hnr, if_neg Bool.false_ne_true]
  rcases hd : detect_issues_locally d with - | ⟨x, xs⟩
  · rfl
  · dsimp only
    rw [if_neg (by simp)]
    by_cases hg : (cfg.use_langchain && should_use_llm (x :: xs)) = true
    · rw [if_pos hg]
      rfl
    · rw [if_neg hg]
      rfl

theorem severe_cpu_pipeline_info_level :
    detect_issues_locally snapH1 = ["CPU使用率严重过高"] ∧
    (∀ (cfg : AgentConfig) (o : AnalyzeOracle) (now : ℚ),
      o.pipeline_raises = false →
      (analyze cfg now snapH1 o).result.anomalies_detected =
        ["CPU使用率严重过高"]) ∧
    should_use_llm ["CPU使用率严重过高"] = true ∧
    classify_alert_level "CPU使用率严重过高" = AlertLevel.info ∧
    classify_alert_level "CPU使用率严重过高" ≠ AlertLevel.critical ∧
    (classify_metric snapH1 "CPU使用率严重过高").1 = MetricType.cpu_usage ∧
    (∀ (res : AnalysisResult) (now : ℚ),
      res.anomalies_detected = ["CPU使用率严重过高"] →
      (handle_alerts emptyManager now snapH1 res).2 = 1 ∧
      (get_active_alerts (handle_alerts emptyManager now snapH1 res).1).map
        (fun e => (e.level, e.metric_type)) =
          [(AlertLevel.info, MetricType.cpu_usage)]) := by
  have hdet : detect_issues_locally snapH1 = ["CPU使用率严重过高"] := by
    norm_num [detect_issues_locally, snapH1, memoryUsagePercent]
  refine ⟨hdet, ?_, by decide, by decide, by decide, by decide, ?_⟩
  · intro cfg o now hnr
    rw [analyze_anomalies_eq cfg now snapH1 o hnr, hdet]
  · intro res now h
    unfold handle_alerts
    rw [h]
    exact ⟨rfl, rfl⟩

/-- Witness for C4's pipeline-evaluation conjuncts at concrete inputs. -/
theorem severe_cpu_pipeline_info_level_witness :
    (handle_alerts emptyManager 4 snapH1
      (analyze ⟨true, false⟩ 3 snapH1
        ⟨.failure, .failure, [], .failure, false⟩).result).2 = 1 := by
  have h := severe_cpu_pipeline_info_level
  have hres := h.2.1 ⟨true, false⟩ ⟨.failure, .failure, [], .failure, false⟩ 3 rfl
  exact (h.2.2.2.2.2.2 _ 4 hres).1

/-- C6 helper: the confidence score written by `analyze` when the pipeline
does not raise, as a function of the gate only — it does not depend on
whether the structured-chain tier succeeded. -/
theorem analyze_confidence_eq (cfg : AgentConfig) (now : ℚ) (d : MonitoringData)
    (o : AnalyzeOracle) (hnr : o.pipeline_raises = false) :
    (analyze cfg now d o).result.confidence_score =
      if detect_issues_locally d = [] then 0.6
      else if cfg.use_langchain && should_use_llm (detect_issues_locally d) then 0.9
      else 0.7 := by
  unfold analyze
  rw [hnr, if_neg Bool.false_ne_true]
  rcases hd : detect_issues_locally d with - | ⟨x, xs⟩
  · rw [if_pos rfl]
    show (create_analysis_result now d _ none 0.6 false).confidence_score = _
    unfold create_analysis_result
    norm_num
  · dsimp only
    rw [if_neg (show ¬((x :: xs).isEmpty = true) by simp),
      if_neg (List.cons_ne_nil x xs)]
    by_cases hg : (cfg.use_langchain && should_use_llm (x :: xs)) = true
    · rw [if_pos hg, if_pos hg]
      show (create_analysis_result now d _ _ 0.9 _).confidence_score = 0.9
      unfold create_analysis_result
      norm_num
    · rw [if_neg hg, if_neg hg]
      show (create_analysis_result now d _ _ 0.7 _).confidence_score = 0.7
      unfold create_analysis_result
      norm_num

/-- C6 helper: `tier1_succeeded` holds exactly when the gate routed to the
deep tier and the oracle reports a chain success. -/
theorem analyze_tier1_eq (cfg : AgentConfig) (now : ℚ) (d : MonitoringData)
    (o : AnalyzeOracle) (hnr : o.pipeline_raises = false) :
    (analyze cfg now d o).tier1_succeeded =
      (!(detect_issues_locally d).isEmpty &&
        (cfg.use_langchain && should_use_llm (detect_issues_locally d)) &&
        (match o.tier1 with | .success _ => true | .failure => false)) := by
  unfold analyze
  rw [hnr, if_neg Bool.false_ne_true]
  rcases hd : detect_issues_locally d with - | ⟨x, xs⟩
  · rfl
  · dsimp only
    rw [if_neg (by simp)]
    by_cases hg : (cfg.use_langchain && should_use_llm (x :: xs)) = true
    · rw [if_pos hg, hg]
      simp
    · rw [if_neg hg]
      rw [Bool.not_eq_true] at hg
      rw [hg]
      simp

/-- C6 counterexample: "confidence 0.9 iff tier 1 succeeded" is false —
with LangChain enabled, a complex issue, and the structured-chain tier
failing, `analyze` still stamps confidence 0.9 (the assignment after the
attempt ignores the internal fallback). -/
theorem confidence_nine_without_chain_success :
    ¬ (∀ (cfg : AgentConfig) (now : ℚ) (d : MonitoringData) (o : AnalyzeOracle),
        o.pipeline_raises = false →
        ((analyze cfg now d o).result.confidence_score = 0.9 ↔
          (analyze cfg now d o).tier1_succeeded = true)) := by
  intro hcl
  have hdet : detect_issues_locally snapH1 = ["CPU使用率严重过高"] := by
    norm_num [detect_issues_locally, snapH1, memoryUsagePercent]
  have hconf : (analyze ⟨true, false⟩ 0 snapH1
      ⟨.failure, .failure, [], .failure, false⟩).result.confidence_score = 0.9 := by
    rw [analyze_confidence_eq _ _ _ _ rfl, hdet]
    rw [if_neg (by simp), if_pos (by decide)]
  have h := (hcl ⟨true, false⟩ 0 snapH1
    ⟨.failure, .failure, [], .failure, false⟩ rfl).mp hconf
  rw [analyze_tier1_eq _ _ _ _ rfl, hdet] at h
  simp at h

/-- C6 (amended): the confidence score is 0.6 when local detection found no
issues; 0.9 whenever the structured-chain tier was *attempted* (LangChain
enabled and the gate fired), regardless of whether the attempt succeeded or
degraded internally; and 0.7 when the deep tier was skipped. -/
theorem confidence_policy (cfg : AgentConfig) (now : ℚ) (d : MonitoringData)
    (o : AnalyzeOracle) (hnr : o.pipeline_raises = false) :
    (detect_issues_locally d = [] →
      (analyze cfg now d o).result.confidence_score = 0.6) ∧
    (detect_issues_locally d ≠ [] →
      (cfg.use_langchain && should_use_llm (detect_issues_locally d)) = true →
      (analyze cfg now d o).result.confidence_score = 0.9) ∧
    (detect_issues_locally d ≠ [] →
      (cfg.use_langchain && should_use_llm (detect_issues_locally d)) = false →
      (analyze cfg now d o).result.confidence_score = 0.7) := by
  rw [analyze_confidence_eq cfg now d o hnr]
  refine ⟨fun he => by rw [if_pos he], fun hne hg => ?_, fun hne hg => ?_⟩
  · rw [if_neg hne, if_pos hg]
  · rw [if_neg hne, hg, if_neg (by simp)]

/-- Witness for C6 (amended): a clean snapshot yields confidence 0.6. -/
theorem confidence_policy_witness :
    (analyze ⟨true, false⟩ 0
      { hostname := "h3", cpu_usage := 10, memory_total := 100,
        memory_used := 10, cpu_load_1min := 1 }
      ⟨.failure, .failure, [], .failure, false⟩).result.confidence_score = 0.6 :=
  (confidence_policy ⟨true, false⟩ 0
    { hostname := "h3", cpu_usage := 10, memory_total := 100,
      memory_used := 10, cpu_load_1min := 1 }
    ⟨.failure, .failure, [], .failure, false⟩ rfl).1
    (by norm_num [detect_issues_locally, memoryUsagePercent])

/-- C7: `analyze` never raises past its boundary — with the deep-analysis
capability forced to always fail, the diagnosis is exactly the one of the
rule-based tier; and when the whole pipeline fails, the caller receives the
minimal synthetic result: confidence 0.3, exactly one generic issue, and
exactly one generic recommendation. -/
theorem analysis_never_raises (cfg : AgentConfig) (issues : List String)
    (now : ℚ) (d : MonitoringData) (o : AnalyzeOracle)
    (hr : o.pipeline_raises = true) :
    perform_langchain_analysis cfg issues .failure .failure =
      (get_rule_based_analysis issues, true) ∧
    (analyze cfg now d o).result = fallback_analysis now d ∧
    (analyze cfg now d o).result.confidence_score = 0.3 ∧
    (analyze cfg now d o).result.anomalies_detected.length = 1 ∧
    (analyze cfg now d o).result.recommendations.length = 1 := by
  have hfb : ∀ oc : Bool, fallback_analysis_mode ⟨cfg.use_langchain, oc⟩ issues
      (.failure) = get_rule_based_analysis issues := by
    intro oc
    cases oc <;> rfl
  have h1 : perform_langchain_analysis cfg issues .failure .failure =
      (get_rule_based_analysis issues, true) := by
    unfold perform_langchain_analysis fallback_analysis_mode
    rcases cfg with ⟨ul, oc⟩
    cases ul <;> cases oc <;> rfl
  have h2 : (analyze cfg now d o).result = fallback_analysis now d := by
    unfold analyze
    rw [hr, if_pos rfl]
  exact ⟨h1, h2, by rw [h2]; rfl, by rw [h2]; rfl, by rw [h2]; rfl⟩

theorem countP_of_decomp {R1 R2 : List Alert} {anew : Alert} {p : Alert → Bool}
    (hothers : ∀ x ∈ R1 ++ R2, p x = false) (hnew : p anew = true) :
    (R1 ++ anew :: R2).countP p = 1 ∧
    (∀ e ∈ R1 ++ anew :: R2, p e = true → e = anew) := by
  have h1 : R1.countP p = 0 := List.countP_eq_zero.mpr (fun x hx => by
    rw [hothers x (List.mem_append.mpr (Or.inl hx))]
    simp)
  have h2 : R2.countP p = 0 := List.countP_eq_zero.mpr (fun x hx => by
    rw [hothers x (List.mem_append.mpr (Or.inr hx))]
    simp)
  constructor
  · rw [List.countP_append, List.countP_cons_of_pos _ _ hnew, h1, h2]
  · intro e he hpe
    rcases List.mem_append.mp he with he | he
    · rw [hothers e (List.mem_append.mpr (Or.inl he))] at hpe
      exact absurd hpe (by simp)
    · rcases List.mem_cons.mp he with rfl | he
      · rfl
      · rw [hothers e (List.mem_append.mpr (Or.inr he))] at hpe
        exact absurd hpe (by simp)

theorem AlertLevel.value_inj {x y : AlertLevel} : x.value = y.value ↔ x = y := by
  cases x <;> cases y <;> simp [AlertLevel.value]

/-- C1: processing two factory-fresh alerts with the same unsuppressed
`(hostname, metric_type)` identity from any reachable state leaves exactly
one active alert for that identity, carrying the second submission's
`current_value` and `timestamp`; and in every reachable state at most one
unresolved active alert exists per `(hostname, metric_type)`. -/
theorem dedup_invariant (st : ManagerState) (h : Reachable st) (a b : Alert)
    (n1 n2 : ℚ)
    (hab_host : b.hostname = a.hostname) (hab_mt : b.metric_type = a.metric_type)
    (hfa : freshAlert a) (hfb : freshAlert b)
    (hsupp : lookupKey (suppression_key a.hostname a.metric_type.value)
      st.suppression_rules = none) :
    ((get_active_alerts (process_alert (process_alert st n1 a).1 n2 b).1).countP
        (fun e => similar a e) = 1 ∧
      (∀ e ∈ get_active_alerts (process_alert (process_alert st n1 a).1 n2 b).1,
        similar a e = true →
        e.current_value = b.current_value ∧ e.timestamp = b.timestamp)) ∧
    (∀ st' : ManagerState, Reachable st' → ∀ (hostname : String) (mt : MetricType),
      (get_active_alerts st').countP
        (fun e => decide (e.hostname = hostname) && decide (e.metric_type = mt) &&
          !e.resolved) ≤ 1) := by
  have hwf := wf_of_reachable h
  have hsim_ab : ∀ e, similar b e = similar a e := similar_congr hab_host hab_mt
  constructor
  · obtain ⟨-, -, -, -, -, -, -, -, hsupp_pres, -⟩ := process_effect n1 hwf hfa hsupp
    have hwf1 : Wf (process_alert st n1 a).1 := wf_process hwf hfa n1
    have hsupp1 : lookupKey (suppression_key b.hostname b.metric_type.value)
        (process_alert st n1 a).1.suppression_rules = none := by
      rw [hab_host, hab_mt, hsupp_pres]
      exact hsupp
    obtain ⟨R1, anew, R2, hrecs2, hoth, hnew, hcv, hts, -, -⟩ :=
      process_effect n2 hwf1 hfb hsupp1
    have hcnt := countP_of_decomp (p := fun e => similar b e) hoth hnew
    constructor
    · rw [hrecs2, show (fun e => similar a e) = (fun e => similar b e) from
        funext (fun e => (hsim_ab e).symm)]
      exact hcnt.1
    · intro e he hsa
      rw [hrecs2] at he
      obtain rfl := hcnt.2 e he ((hsim_ab e).trans hsa)
      exact ⟨hcv, hts⟩
  · intro st' h' hostname mt
    exact countP_similar_le_one (wf_of_reachable h').pairs_nodup
      { sampleAlert with hostname := hostname, metric_type := mt }

/-- Witness for C1 at concrete inputs from the empty manager. -/
theorem dedup_invariant_witness :
    (get_active_alerts (process_alert (process_alert emptyManager 1 sampleAlert).1
        2 sampleAlertB).1).countP (fun e => similar sampleAlert e) = 1 :=
  ((dedup_invariant emptyManager ⟨[], by simp, rfl⟩ sampleAlert sampleAlertB 1 2
    rfl rfl ⟨rfl, rfl⟩ ⟨rfl, rfl⟩ rfl).1).1

/-- C2: from a reachable state with no suppression rule and no active alert
for the pair, processing warning-level `a` then critical-level `b` with the
same identity notifies exactly twice (create, then escalate) and leaves
exactly one active alert for the pair, at level critical; in general a
matching submission with an unchanged level produces no notification and
only refreshes value/timestamp, while any level difference (including a
downgrade) overwrites level and description and notifies once. -/
theorem escalation_notifications (st : ManagerState) (h : Reachable st)
    (a b : Alert) (n1 n2 : ℚ)
    (hla : a.level = .warning) (hlb : b.level = .critical)
    (hab_host : b.hostname = a.hostname) (hab_mt : b.metric_type = a.metric_type)
    (hfa : freshAlert a) (hfb : freshAlert b)
    (hsupp : lookupKey (suppression_key a.hostname a.metric_type.value)
      st.suppression_rules = none)
    (hnone : find_similar_alert st a = none) :
    ((process_alert st n1 a).2 = 1 ∧
      (process_alert (process_alert st n1 a).1 n2 b).2 = 1 ∧
      (get_active_alerts (process_alert (process_alert st n1 a).1 n2 b).1).countP
        (fun e => similar a e) = 1 ∧
      (∀ e ∈ get_active_alerts (process_alert (process_alert st n1 a).1 n2 b).1,
        similar a e = true → e.level = .critical)) ∧
    (∀ (st' : ManagerState) (c : Alert) (n : ℚ) (i : Nat) (e : Alert),
      lookupKey (suppression_key c.hostname c.metric_type.value)
        st'.suppression_rules = none →
      find_similar_alert st' c = some i →
      st'.store.get? i = some e →
      ((c.level = e.level → (process_alert st' n c).2 = 0 ∧
        (process_alert st' n c).1.store.get? i =
          some { e with current_value := c.current_value, timestamp := c.timestamp }) ∧
       (c.level ≠ e.level → (process_alert st' n c).2 = 1 ∧
        (process_alert st' n c).1.store.get? i =
          some { e with current_value := c.current_value, timestamp := c.timestamp,
                        level := c.level, description := c.description }))) := by
  have hwf := wf_of_reachable h
  have hsim_ab : ∀ e, similar b e = similar a e := similar_congr hab_host hab_mt
  constructor
  · obtain ⟨S1, x, S2, hrecs1, hoth1, hnew1, -, -, hsupp_pres, hdisj1⟩ :=
      process_effect n1 hwf hfa hsupp
    have hn1 : (process_alert st n1 a).2 = 1 := by
      rcases hdisj1 with ⟨-, -, hn⟩ | ⟨i, e, hfind, -, -, -, -, -⟩
      · exact hn
      · rw [hnone] at hfind
        exact absurd hfind (by simp)
    have hxa : x = a := by
      rcases hdisj1 with ⟨-, hx, -⟩ | ⟨i, e, hfind, -, -, -, -, -⟩
      · exact hx
      · rw [hnone] at hfind
        exact absurd hfind (by simp)
    have hwf1 : Wf (process_alert st n1 a).1 := wf_process hwf hfa n1
    have hsupp1 : lookupKey (suppression_key b.hostname b.metric_type.value)
        (process_alert st n1 a).1.suppression_rules = none := by
      rw [hab_host, hab_mt, hsupp_pres]
      exact hsupp
    obtain ⟨R1, anew, R2, hrecs2, hoth2, hnew2, -, -, -, hdisj2⟩ :=
      process_effect n2 hwf1 hfb hsupp1
    have hcnt := countP_of_decomp (p := fun e => similar b e) hoth2 hnew2
    rcases hdisj2 with ⟨hfind2, -, -⟩ | ⟨i, e, hfind2, hget2, hsimbe, hmem2, hanew, hn2⟩
    · exfalso
      have := find_similar_none_records hfind2 a (by
        rw [hrecs1, hxa]
        exact List.mem_append.mpr (Or.inr (List.mem_cons_self a S2)))
      rw [hsim_ab a, similar_self hfa.1] at this
      exact Bool.true_eq_false.mp this
    · have hsae : similar a e = true := (hsim_ab e).symm.trans hsimbe
      have hea : e = a := by
        rw [hrecs1, hxa] at hmem2
        rcases List.mem_append.mp hmem2 with he | he
        · rw [hoth1 e (List.mem_append.mpr (Or.inl he))] at hsae
          exact absurd hsae (by simp)
        · rcases List.mem_cons.mp he with rfl | he
          · rfl
          · rw [hoth1 e (List.mem_append.mpr (Or.inr he))] at hsae
            exact absurd hsae (by simp)
      have hlv : b.level.value ≠ e.level.value := by
        rw [hea, hla, hlb]
        decide
      have hn2' : (process_alert (process_alert st n1 a).1 n2 b).2 = 1 := by
        rw [hn2, if_pos hlv]
      have hanew_level : anew.level = .critical := by
        rw [hanew]
        unfold updatedCell
        rw [if_pos hlv]
        exact hlb
      refine ⟨hn1, hn2', ?_, ?_⟩
      · rw [hrecs2, show (fun x => similar a x) = (fun x => similar b x) from
          funext (fun x => (hsim_ab x).symm)]
        exact hcnt.1
      · intro x hx hsx
        rw [hrecs2] at hx
        obtain rfl := hcnt.2 x hx ((hsim_ab x).trans hsx)
        exact hanew_level
  · intro st' c n i e hsupp' hfind' hget'
    rw [process_alert_of_unsuppressed n hsupp', hfind']
    dsimp only
    rw [update_existing_eq c hget']
    constructor
    · intro hlv
      have hv : ¬ (c.level.value ≠ e.level.value) := by
        rw [hlv]
        exact fun hc => hc rfl
      refine ⟨by rw [if_neg hv], ?_⟩
      show (st'.store.set i (updatedCell e c)).get? i = _
      rw [List.get?_set_eq, hget']
      unfold updatedCell
      rw [if_neg hv]
      rfl
    · intro hlv
      have hv : c.level.value ≠ e.level.value :=
        fun hc => hlv (AlertLevel.value_inj.mp hc)
      refine ⟨by rw [if_pos hv], ?_⟩
      show (st'.store.set i (updatedCell e c)).get? i = _
      rw [List.get?_set_eq, hget']
      unfold updatedCell
      rw [if_pos hv]
      rfl

/-- Witness for C2 at concrete inputs from the empty manager. -/
theorem escalation_notifications_witness :
    (process_alert emptyManager 1 sampleAlert).2 = 1 ∧
    (process_alert (process_alert emptyManager 1 sampleAlert).1 2 sampleAlertB).2 = 1 := by
  have h := (escalation_notifications emptyManager ⟨[], by simp, rfl⟩ sampleAlert
    sampleAlertB 1 2 rfl rfl rfl rfl ⟨rfl, rfl⟩ ⟨rfl, rfl⟩ rfl rfl).1
  exact ⟨h.1, h.2.1⟩

/-- C9: in every reachable manager state, every alert in the history log
and in the active set has `resolved_at` set (non-`none`) iff `resolved` is
true. -/
theorem resolved_at_iff_resolved (st : ManagerState) (h : Reachable st) :
    (∀ e ∈ history_alerts st, (e.resolved = true ↔ e.resolved_at ≠ none)) ∧
    (∀ e ∈ get_active_alerts st, (e.resolved = true ↔ e.resolved_at ≠ none)) := by
  have hwf := wf_of_reachable h
  have hstore : ∀ e ∈ st.store, (e.resolved = true ↔ e.resolved_at ≠ none) := by
    intro e he
    rw [← Option.isSome_iff_ne_none]
    rw [show (e.resolved_at.isSome ↔ e.resolved_at.isSome = true) from by simp]
    exact hwf.res_iff e he
  constructor
  · intro e he
    rw [history_alerts, List.mem_filterMap] at he
    obtain ⟨i, -, hget⟩ := he
    exact hstore e (List.get?_mem hget)
  · intro e he
    obtain ⟨p, -, hget⟩ := mem_of_mem_records he
    exact hstore e (List.get?_mem hget)

/-- Witness for C9 on a concrete reachable state with one resolved alert. -/
theorem resolved_at_iff_resolved_witness :
    (({ sampleAlert with resolved := true, resolved_at := some 2 } : Alert).resolved = true ↔
      ({ sampleAlert with resolved := true, resolved_at := some 2 } : Alert).resolved_at ≠ none) := by
  have h := resolved_at_iff_resolved
    (runOps emptyManager [MgrOp.process 1 sampleAlert, MgrOp.resolve 2 sampleAlert.id])
    ⟨[MgrOp.process 1 sampleAlert, MgrOp.resolve 2 sampleAlert.id], ?_, rfl⟩
  · refine h.1 _ ?_
    decide
  · intro op hop
    rcases List.mem_cons.mp hop with rfl | hop
    · exact ⟨rfl, rfl⟩
    · rcases List.mem_cons.mp hop with rfl | hop
      · trivial
      · simp at hop

theorem filterMap_get?_range (l : List Alert) :
    (List.range l.length).filterMap l.get? = l := by
  induction l with
  | nil => rfl
  | cons x l ih =>
    rw [List.length_cons, List.range_succ_eq_map, List.filterMap_cons,
      show (x :: l).get? 0 = some x from rfl, List.filterMap_map,
      show (x :: l).get? ∘ Nat.succ = l.get? from funext (fun i => rfl), ih]

theorem history_eq_store {st : ManagerState} (hwf : Wf st) :
    history_alerts st = st.store := by
  rw [history_alerts, hwf.hist_eq]
  exact filterMap_get?_range st.store

theorem countP_levels_sum (l : List Alert) :
    l.countP (fun e => e.level = .info) + l.countP (fun e => e.level = .warning) +
    l.countP (fun e => e.level = .critical) +
    l.countP (fun e => e.level = .emergency) = l.length := by
  induction l with
  | nil => rfl
  | cons e l ih =>
    rcases he : e.level <;> simp [List.countP_cons, he] <;> omega

/-- C10: the history log aliases the same records as the active set, so
`statistics()` counts each created alert exactly once under its *current*
(post-escalation) level — the distribution equals the count over the arena
cells — and the four per-level counts sum to `total_alerts`; concretely, a
warning alert escalated to critical is counted once, under critical. -/
theorem level_distribution_current (st : ManagerState) (h : Reachable st) :
    (∀ lv, (get_alert_statistics st).level_distribution lv =
      st.store.countP (fun e => e.level = lv)) ∧
    ((get_alert_statistics st).level_distribution .info +
      (get_alert_statistics st).level_distribution .warning +
      (get_alert_statistics st).level_distribution .critical +
      (get_alert_statistics st).level_distribution .emergency =
      (get_alert_statistics st).total_alerts) ∧
    ((get_alert_statistics ((process_alert (process_alert emptyManager 1
        sampleAlert).1 2 sampleAlertB).1)).level_distribution .critical = 1 ∧
      (get_alert_statistics ((process_alert (process_alert emptyManager 1
        sampleAlert).1 2 sampleAlertB).1)).level_distribution .warning = 0 ∧
      (get_alert_statistics ((process_alert (process_alert emptyManager 1
        sampleAlert).1 2 sampleAlertB).1)).total_alerts = 1) := by
  have hwf := wf_of_reachable h
  have hdist : ∀ lv, (get_alert_statistics st).level_distribution lv =
      st.store.countP (fun e => e.level = lv) := by
    intro lv
    show (history_alerts st).countP (fun e => e.level = lv) = _
    rw [history_eq_store hwf]
  refine ⟨hdist, ?_, by decide, by decide, by decide⟩
  rw [hdist, hdist, hdist, hdist]
  rw [show (get_alert_statistics st).total_alerts = st.alert_history.length from rfl,
    hwf.hist_eq, List.length_range]
  exact countP_levels_sum st.store

/-- Witness for C10 at the empty manager. -/
theorem level_distribution_current_witness :
    (get_alert_statistics emptyManager).level_distribution .info +
      (get_alert_statistics emptyManager).level_distribution .warning +
      (get_alert_statistics emptyManager).level_distribution .critical +
      (get_alert_statistics emptyManager).level_distribution .emergency =
      (get_alert_statistics emptyManager).total_alerts :=
  (level_distribution_current emptyManager ⟨[], by simp, rfl⟩).2.1

/-- Witness for C7 at concrete inputs. -/
theorem analysis_never_raises_witness :
    perform_langchain_analysis ⟨true, true⟩ ["CPU使用率严重过高"] .failure .failure =
      (get_rule_based_analysis ["CPU使用率严重过高"], true) ∧
    (analyze ⟨true, true⟩ 0 snapH1
      ⟨.failure, .failure, [], .failure, true⟩).result.confidence_score = 0.3 :=
  ⟨(analysis_never_raises ⟨true, true⟩ ["CPU使用率严重过高"] 0 snapH1
      ⟨.failure, .failure, [], .failure, true⟩ rfl).1,
    (analysis_never_raises ⟨true, true⟩ ["CPU使用率严重过高"] 0 snapH1
      ⟨.failure, .failure, [], .failure, true⟩ rfl).2.2.1⟩

end LinuxMonitor
